import Mathlib

/-!
# Verification of the assemblyline cuckoo service against its design spec

Shallow embedding of the task submission/polling state machine
(`src/cuckoo/cuckoo.py`) and of the report normalization pipeline
(`src/cuckoo/cuckooresult.py`), together with proofs and refutations of the
frozen claims about them.

External libraries (`ssdeep`, `hashlib`, `re`, the assemblyline framework)
and repository modules that are not part of the source tree
(`cuckoo.whitelist`, `cuckoo.clsids`, `cuckoo.signatures`) are modelled as
abstract function parameters: no claim depends on their concrete behaviour,
only on how the source code uses their results.
-/

set_option maxHeartbeats 1000000

namespace Cuckoo

/-! ## Generic utilities shared by the embeddings -/

/-- `as` is a prefix of `bs`. -/
def isPrefixList : List Char → List Char → Bool
  | [], _ => true
  | _ :: _, [] => false
  | a :: as, b :: bs => a = b && isPrefixList as bs

def isInfixList (needle : List Char) : List Char → Bool
  | [] => needle.isEmpty
  | b :: bs => isPrefixList needle (b :: bs) || isInfixList needle bs

/-- Python `needle in haystack` on strings (substring containment). -/
def containsSubstr (needle hay : String) : Bool :=
  isInfixList needle.data hay.data

/-- Python `'{0:<n}'.format s`: left-justify by padding with spaces
(never truncates). -/
def padRight (s : String) (n : Nat) : String :=
  s ++ String.mk (List.replicate (n - s.length) ' ')

/-- Boolean string order used to model Python `sorted` on strings. -/
def strLe (a b : String) : Bool := decide (a ≤ b)

/-- Stable insertion into a sorted list of strings. -/
def insertSorted (a : String) : List String → List String
  | [] => [a]
  | b :: rest => if strLe a b then a :: b :: rest else b :: insertSorted a rest

/-- Python `sorted` on a list of strings (structural insertion sort, so that
concrete runs reduce in the kernel). -/
def pySorted (l : List String) : List String := l.foldr insertSorted []

/-- Python dict lookup `d.get(k)` on an insertion-ordered association list. -/
def alookup {α : Type} (m : List (String × α)) (k : String) : Option α :=
  (m.find? (fun p => p.1 = k)).map (·.2)

/-- Python dict update `d[k] = v` on an insertion-ordered association list:
overwrite in place if the key exists, else append. -/
def aset {α : Type} (m : List (String × α)) (k : String) (v : α) :
    List (String × α) :=
  if m.any (fun p => p.1 = k) then
    m.map (fun p => if p.1 = k then (k, v) else p)
  else m ++ [(k, v)]

/-- Python `s.rsplit(".", 1)[-1]`: the text after the last dot, or the whole
string when it has no dot. -/
def extOf (s : String) : String :=
  String.mk ((s.data.reverse.takeWhile (fun c => c ≠ '.')).reverse)

/-- A string with no dot in it (true of every random replacement filename the
service generates, which are drawn from `[A-Za-z0-9]`). -/
def dotFree (s : String) : Prop := ∀ c ∈ s.data, c ≠ '.'

theorem takeWhile_append_stop (p : Char → Bool) (l1 : List Char) (x : Char)
    (l2 : List Char) (h1 : ∀ c ∈ l1, p c) (hx : ¬ p x) :
    (l1 ++ x :: l2).takeWhile p = l1 := by
  induction l1 with
  | nil => simp [List.takeWhile_cons, hx]
  | cons a as ih =>
    have ha : p a := h1 a (List.mem_cons_self a as)
    simp only [List.cons_append, List.takeWhile_cons, ha, if_true]
    rw [ih (fun c hc => h1 c (List.mem_cons_of_mem a hc))]

/-- Members of the extension component never contain a dot. -/
theorem dotFree_extOf (s : String) : dotFree (extOf s) := by
  intro c hc
  have : c ∈ (s.data.reverse.takeWhile (fun c => c ≠ '.')).reverse := hc
  rw [List.mem_reverse] at this
  have := List.mem_takeWhile_imp this
  simpa using this

/-- Renaming to `w ++ "." ++ e` preserves a dot-free extension `e`. -/
theorem extOf_rename (w e : String) (he : dotFree e) :
    extOf (w ++ "." ++ e) = e := by
  unfold extOf
  have hdata : (w ++ "." ++ e).data = w.data ++ '.' :: e.data := by
    simp [String.data_append]
  rw [hdata, List.reverse_append]
  have : ('.' :: e.data).reverse = e.data.reverse ++ ['.'] := by simp
  rw [this, List.append_assoc]
  have hstop : (e.data.reverse ++ ('.' :: w.data.reverse)).takeWhile
      (fun c => c ≠ '.') = e.data.reverse := by
    apply takeWhile_append_stop
    · intro c hcm
      rw [List.mem_reverse] at hcm
      simpa using he c hcm
    · simp
  simp only [List.singleton_append] at hstop ⊢
  rw [hstop, List.reverse_reverse]

/-- Append an element to each group only if it is not already present
(dedup-merge, as in `_add_ex_data` and `parse_protocol_data`). -/
def mergeInto {β : Type} [DecidableEq β] (base xs : List β) : List β :=
  xs.foldl (fun acc x => if x ∈ acc then acc else acc ++ [x]) base

theorem mem_mergeInto {β : Type} [DecidableEq β] (base xs : List β) (y : β) :
    y ∈ mergeInto base xs ↔ y ∈ base ∨ y ∈ xs := by
  induction xs generalizing base with
  | nil => simp [mergeInto]
  | cons x rest ih =>
    simp only [mergeInto, List.foldl_cons] at *
    by_cases hx : x ∈ base
    · simp only [hx, if_true]
      rw [ih]
      constructor
      · rintro (h | h)
        · exact Or.inl h
        · exact Or.inr (List.mem_cons_of_mem x h)
      · rintro (h | h)
        · exact Or.inl h
        · rcases List.mem_cons.mp h with h | h
          · exact Or.inl (h ▸ hx)
          · exact Or.inr h
    · simp only [hx, if_false]
      rw [ih]
      simp only [List.mem_append, List.mem_singleton, List.mem_cons]
      tauto

theorem nodup_mergeInto {β : Type} [DecidableEq β] (base xs : List β)
    (hb : base.Nodup) : (mergeInto base xs).Nodup := by
  induction xs generalizing base with
  | nil => exact hb
  | cons x rest ih =>
    simp only [mergeInto, List.foldl_cons]
    by_cases hx : x ∈ base
    · simpa only [hx, if_true] using ih base hb
    · simp only [hx, if_false]
      exact ih (base ++ [x]) (by simp [List.nodup_append, hb, hx])

/-! ### `retrying` decorator semantics

The source wraps each network call in `retrying.retry(...)`.  `retryExc`
models a bounded-attempt wrapper (`stop_max_attempt_number`) that retries
exactly the exceptions satisfying `retryOn` and returns any non-exceptional
result as-is.  The per-attempt behaviour of the remote side is supplied as a
script (a list of responses); an exhausted script yields the distinguished
result `.error none`, which no theorem's run ever reaches. -/
def retryExc {σ ι ε α : Type} (retryOn : ε → Bool)
    (step : ι → σ → σ × Except ε α) :
    Nat → List ι → σ → σ × Except (Option ε) α
  | _, [], s => (s, .error none)
  | 0, _ :: _, s => (s, .error none)
  | 1, i :: _, s =>
    let p := step i s
    (p.1, p.2.mapError some)
  | (fuel + 2), i :: rest, s =>
    let p := step i s
    match p.2 with
    | .ok a => (p.1, .ok a)
    | .error e =>
      if retryOn e then retryExc retryOn step (fuel + 1) rest p.1
      else (p.1, .error (some e))

/-- `retrying` with `retry_on_result=_retry_on_none` and a bounded attempt
count: poll until the step produces a value; `none` models the `RetryError`
raised when the bound is hit (or a script that never leaves the retried
state). -/
def retryResult {ι α : Type} (step : ι → Option α) :
    Nat → List ι → Option α
  | _, [] => none
  | 0, _ :: _ => none
  | (fuel + 1), i :: rest =>
    match step i with
    | some a => some a
    | none => retryResult step fuel rest

/-! ## Exceptions of the task-runner embedding

`CErr.recoverable` models assemblyline's `RecoverableError`, a subclass of
`ChainException`; `_exclude_chain_ex` retry predicates treat it as
non-retryable.  `CErr.genericExc` models a plain `Exception`,
`CErr.missingReportExc` the service's `MissingCuckooReportException` (a plain
`Exception` subclass), `CErr.typeErrorExc` a Python `TypeError`, and
`CErr.stub` is a modelling artifact for exhausted poll scripts that no
theorem's run reaches. -/
inductive CErr : Type
  | recoverable (msg : String)
  | genericExc (msg : String)
  | missingReportExc
  | typeErrorExc
  | stub
deriving DecidableEq, Repr

/-- `isinstance(ex, ChainException)`: only `RecoverableError` is a chain
exception among the exceptions this service raises. -/
def isChain : CErr → Bool
  | .recoverable _ => true
  | _ => false

/-- `_exclude_chain_ex`: retry only when the exception is not a
`ChainException`. -/
def exclude_chain_ex (e : CErr) : Bool := !isChain e

/-! ## Dropped-file extraction and fuzzy dedup (`Cuckoo.check_dropped`)

`check_dropped` extracts each dropped file from the dropped-file archive; we
model its per-file decision pipeline over the extracted list.  `ssdeep.hash`,
`ssdeep.compare`, `hashlib.md5` and the whitelist module (absent from the
source tree) are abstract parameters. -/

/-- Byte blobs (the `data` read from each dropped file). -/
def Bytes : Type := List Nat

instance : DecidableEq Bytes := by unfold Bytes; infer_instance

structure DroppedFile where
  name : String
  data : Bytes
deriving DecidableEq

/-- The fuzzy-dedup decision of `check_dropped`: skip the file iff its ssdeep
hash scores at least `ssdeep_match_pct` against some previously accepted
hash (`ssdeep.compare(ssdeep_hash, seen_hash) >= self.ssdeep_match_pct`). -/
def dedupSkip (ssdCompare : String → String → Nat) (pct : Nat)
    (added : List String) (h : String) : Bool :=
  added.any (fun seen => pct ≤ ssdCompare h seen)

structure DropState where
  added : List String
  extracted : List DroppedFile
deriving DecidableEq

/-- One iteration of the dropped-file loop (`cuckoo.py:848-883`): fuzzy dedup
(only when `deep_scan` is off), exact-md5 check against the submitted file,
then the static whitelist / `_info.txt` name check. -/
def check_dropped_file (ssdHash : Bytes → String)
    (ssdCompare : String → String → Nat) (pct : Nat)
    (md5 : Bytes → String) (wlist_hash wlist_dropped : String → Bool)
    (deep_scan : Bool) (task_md5 : String) (st : DropState)
    (f : DroppedFile) : DropState :=
  let afterDedup : Option DropState :=
    if deep_scan then some st
    else
      let h := ssdHash f.data
      if dedupSkip ssdCompare pct st.added h then none
      else some { st with added := if h ∈ st.added then st.added
                                   else st.added ++ [h] }
  match afterDedup with
  | none => st
  | some st' =>
    let dropped_hash := md5 f.data
    if dropped_hash = task_md5 then st'
    else if !(wlist_hash dropped_hash || wlist_dropped f.name ||
              f.name.endsWith "_info.txt") then
      { st' with extracted := st'.extracted ++ [f] }
    else st'

/-- `check_dropped`, restricted to its dedup/whitelist/extraction logic over
the files recovered from the dropped archive. Returns the files handed to
`add_extracted`. -/
def check_dropped (ssdHash : Bytes → String)
    (ssdCompare : String → String → Nat) (pct : Nat)
    (md5 : Bytes → String) (wlist_hash wlist_dropped : String → Bool)
    (deep_scan : Bool) (task_md5 : String) (files : List DroppedFile) :
    List DroppedFile :=
  (files.foldl
    (check_dropped_file ssdHash ssdCompare pct md5 wlist_hash wlist_dropped
      deep_scan task_md5)
    { added := [], extracted := [] }).extracted

/-! ## Remote task deletion and the exit paths of `Cuckoo.execute`

`cuckoo_delete_task` is wrapped in `retry(stop_max_attempt_number=2)` with no
exception filter, so each of its two attempts retries any exception and the
second failure propagates.  `executeFinish` models the exit structure of
`Cuckoo.execute` (`cuckoo.py:528-539`): on any exception the handler deletes
the task (when an identifier is live) and re-raises; on normal completion the
final delete runs at top level. -/

inductive DeleteResp : Type
  | timeout
  | connError
  | status (code : Nat)
deriving DecidableEq, Repr

/-- One HTTP attempt of `cuckoo_delete_task` (`cuckoo.py:809-822`): timeouts
raise a plain `Exception`, connection errors a `RecoverableError`; a non-200
status is only logged; a 200 clears the stored task identifier. -/
def cuckoo_delete_task_attempt (r : DeleteResp) (tid : Option Nat) :
    Option Nat × Except CErr Unit :=
  match r with
  | .timeout => (tid, .error (.genericExc "Cuckoo timed out while deleting"))
  | .connError =>
    (tid, .error (.recoverable "Unable to reach the Cuckoo nest"))
  | .status code =>
    if code ≠ 200 then (tid, .ok ()) else (none, .ok ())

/-- `cuckoo_delete_task` with its retry decorator (2 attempts, any exception
retried once, then propagated). -/
def cuckoo_delete_task (a1 a2 : DeleteResp) (tid : Option Nat) :
    Option Nat × Except (Option CErr) Unit :=
  retryExc (fun _ => true)
    (fun (r : DeleteResp) (t : Option Nat) => cuckoo_delete_task_attempt r t)
    2 [a1, a2] tid

/-- The exit paths of `Cuckoo.execute`: `outcome` is the result of the body,
`tid` the live remote task identifier.  Returns whether a delete was issued
and the exception/result that actually leaves `execute`.  Exceptions raised
inside the delete replace the original outcome, because `raise` inside the
`except` block is never reached (and on the success path the final delete
runs unprotected). -/
def executeFinish (outcome : Except CErr Unit) (tid : Option Nat)
    (a1 a2 : DeleteResp) : Bool × Except (Option CErr) Unit :=
  match tid with
  | none => (false, outcome.mapError some)
  | some _ =>
    let d := cuckoo_delete_task a1 a2 tid
    match d.2 with
    | .ok _ => (true, outcome.mapError some)
    | .error e => (true, .error e)

/-! ## File submission and report polling (`cuckoo_submit` and helpers)

The mutable service/task state threaded through submission.  `freshCtr`
indexes into `fresh`, the stream of random words produced by
`generate_random_words(1)`; each rename consumes one.  Cleanup deletes issued
on these paths are modelled as succeeding (they clear the task identifier);
their own failure modes are covered by `cuckoo_delete_task` above. -/
structure SubState where
  file : String
  freshCtr : Nat
  taskId : Option Nat
  errors : List String
  report : Option Unit
deriving DecidableEq, Repr

def clearId (s : SubState) : SubState := { s with taskId := none }

/-- Rename the current file to a fresh random word plus the old extension
(`new_filename + "." + file.rsplit(".", 1)[-1]`). -/
def renameFile (fresh : Nat → String) (s : SubState) : SubState :=
  { s with file := fresh s.freshCtr ++ "." ++ extOf s.file,
           freshCtr := s.freshCtr + 1 }

/-- One HTTP response to `tasks/create/file`; on a 200 the parsed JSON fields
`task_id` / `task_ids` are carried along. -/
inductive SFResp : Type
  | timeout
  | connError
  | status (code : Nat) (task_id : Option Nat) (task_ids : List Nat)
deriving DecidableEq, Repr

/-- Task-id extraction from a 200 submit response (`cuckoo.py:690-699`):
a falsy `task_id` (absent or 0) falls back to the first element of
`task_ids`, and an empty list means no id. -/
def extractTaskId (task_id : Option Nat) (task_ids : List Nat) : Option Nat :=
  match task_id with
  | some n => if n ≠ 0 then some n else task_ids.head?
  | none => task_ids.head?

/-- One attempt of `cuckoo_submit_file` (`cuckoo.py:662-699`): timeouts and
connection errors clean up and raise; a 500 renames the file to a random
word with the old extension and raises a plain exception to force a retry;
any other non-200 returns no id. -/
def cuckoo_submit_file_attempt (fresh : Nat → String) (r : SFResp)
    (s : SubState) : SubState × Except CErr (Option Nat) :=
  match r with
  | .timeout => (clearId s, .error (.genericExc "Cuckoo timed out"))
  | .connError => (clearId s, .error (.recoverable "Unable to reach the Cuckoo nest"))
  | .status code task_id task_ids =>
    if code ≠ 200 then
      if code = 500 then
        (renameFile fresh s, .error (.genericExc "Retrying after 500 error"))
      else (s, .ok none)
    else (s, .ok (extractTaskId task_id task_ids))

/-- `cuckoo_submit_file` with its decorator
`retry(wait_fixed=2000, stop_max_attempt_number=3)`: at most three attempts,
every exception retried, the third failure propagated. -/
def cuckoo_submit_file (fresh : Nat → String) (resps : List SFResp)
    (s : SubState) : SubState × Except (Option CErr) (Option Nat) :=
  retryExc (fun _ => true) (cuckoo_submit_file_attempt fresh) 3 resps s

/-- The task record returned by `tasks/view/{id}` (`cuckoo_query_task`'s
result). `errors` models the task's error list (present whenever a failed
status is reported, as the source assumes). -/
structure TaskInfo where
  tid : Option Nat
  status : Option String
  errors : List String
  guest_status : Option String
deriving DecidableEq, Repr

/-- One step of `cuckoo_poll_started` (`cuckoo.py:608-623`) given the result
of `cuckoo_query_task`: `none` means keep retrying. -/
def cuckoo_poll_started_step (myId : Option Nat) (ti : Option TaskInfo) :
    Option String :=
  match ti with
  | none => some "missing"
  | some t =>
    if t.tid ≠ myId then none
    else if t.guest_status = some "starting" then none
    else some "started"

/-- `cuckoo_poll_started` with its decorator (`GUEST_VM_START_TIMEOUT = 75`
attempts retrying `None` results); exhaustion (`RetryError`) is `none`. -/
def cuckoo_poll_started (myId : Option Nat) (polls : List (Option TaskInfo)) :
    Option String :=
  retryResult (cuckoo_poll_started_step myId) 75 polls

/-- One HTTP response to `tasks/report/{id}/json`: on a 200 the body either
parses to a non-empty dict (`good`), parses to an empty/falsy value
(`empty`), or fails to parse, leaving `report_data` unbound (`bad`). -/
inductive QRResp : Type
  | timeout
  | connError
  | status (code : Nat) (body : Option Bool)
deriving DecidableEq, Repr

/-- One attempt of `cuckoo_query_report` for the JSON report
(`cuckoo.py:703-744`): a 404 deletes the task and raises
`MissingCuckooReportException`; another non-200 returns `None`; a 200 whose
body fails to parse raises (unbound `report_data`), an empty body deletes
and raises, and a good body is the report. -/
def cuckoo_query_report_attempt (r : QRResp) (s : SubState) :
    SubState × Except CErr (Option Unit) :=
  match r with
  | .timeout => (clearId s, .error (.genericExc "Cuckoo timed out"))
  | .connError => (s, .error (.recoverable "Unable to reach the Cuckoo nest"))
  | .status code body =>
    if code ≠ 200 then
      if code = 404 then (clearId s, .error .missingReportExc)
      else (s, .ok none)
    else
      match body with
      | some true => (s, .ok (some ()))
      | some false => (clearId s, .error (.genericExc "Empty report data"))
      | none => (s, .error (.genericExc "NameError: report_data"))

/-- `cuckoo_query_report` with its decorator: 5 attempts, retrying every
exception except `MissingCuckooReportException`, which propagates at once. -/
def cuckoo_query_report (resps : List QRResp) (s : SubState) :
    SubState × Except (Option CErr) (Option Unit) :=
  retryExc (fun e => e ≠ CErr.missingReportExc) cuckoo_query_report_attempt
    5 resps s

/-- One evaluation of the body of `cuckoo_poll_report` (`cuckoo.py:628-660`):
`ok none` means the decorator retries; `ok (some status)` is a final status;
missing reports surface as the `"missing_report"` status. -/
def cuckoo_poll_report_step (myId : Option Nat) (ti : Option TaskInfo)
    (qrs : List QRResp) (s : SubState) :
    SubState × Except CErr (Option String) :=
  match ti with
  | none => (s, .ok (some "missing"))
  | some t =>
    if t.tid ≠ myId then (s, .ok none)
    else
      match t.status with
      | none => (s, .error .typeErrorExc)
      | some status =>
        if containsSubstr "fail" status then
          ({ s with errors := s.errors ++ t.errors }, .ok (some status))
        else if status = "completed" then (s, .ok none)
        else if status = "reported" then
          let q := cuckoo_query_report qrs s
          match q.2 with
          | .error (some .missingReportExc) => (q.1, .ok (some "missing_report"))
          | .error (some e) => (q.1, .error e)
          | .error none => (q.1, .error .stub)
          | .ok (some _) => ({ q.1 with report := some () }, .ok (some status))
          | .ok none => (q.1, .ok none)
        else (s, .ok none)

/-- The unbounded poll loop of `cuckoo_poll_report` (its decorator has no
attempt bound: `None` results and non-chain exceptions are retried forever,
chain exceptions propagate). A script that never resolves is `.error .stub`. -/
def cuckoo_poll_report (myId : Option Nat) :
    List (Option TaskInfo × List QRResp) → SubState →
    SubState × Except CErr String
  | [], s => (s, .error .stub)
  | (ti, qrs) :: rest, s =>
    let p := cuckoo_poll_report_step myId ti qrs s
    match p.2 with
    | .ok (some r) => (p.1, .ok r)
    | .ok none => cuckoo_poll_report myId rest p.1
    | .error e =>
      if isChain e then (p.1, .error e)
      else cuckoo_poll_report myId rest p.1

/-- The remote interactions consumed by one attempt of `cuckoo_submit`:
the submit-file responses, then the guest-start polls, then the
report polls. -/
structure OuterAttempt where
  sf : List SFResp
  startPolls : List (Option TaskInfo)
  reportPolls : List (Option TaskInfo × List QRResp)
deriving Repr

/-- The tail of `cuckoo_submit` (`cuckoo.py:577-599`): turn the final poll
status into either a normal return, a `RecoverableError`, or — for
`missing_report` — a rename to a random extension-preserving filename plus a
plain exception that makes the outer retry restart the whole submission. -/
def cuckoo_submit_finish (fresh : Nat → String) (status : Option String)
    (s : SubState) : SubState × Except CErr Unit :=
  match status with
  | none =>
    (clearId s, .error (.recoverable "Timed out while waiting for cuckoo to analyze file."))
  | some st =>
    if st = "missing" then
      (clearId s, .error (.recoverable "Task went missing while waiting for cuckoo to analyze file."))
    else if st = "stopped" then
      (clearId s, .error (.recoverable "Service has been stopped while waiting for cuckoo to analyze file."))
    else if st = "missing_report" then
      (renameFile fresh s, .error (.genericExc "Retrying after missing_report status"))
    else (s, .ok ())

/-- The body of `cuckoo_submit` (`cuckoo.py:543-599`): submit the file (any
failure becomes a `RecoverableError` after cleanup; a missing id is recorded
and returned), then poll for guest start, then poll for the report, then
dispatch on the resulting status. -/
def cuckoo_submit_attempt (fresh : Nat → String) (att : OuterAttempt)
    (s : SubState) : SubState × Except CErr Unit :=
  let p := cuckoo_submit_file fresh att.sf s
  match p.2 with
  | .error _ =>
    (clearId { p.1 with errors := p.1.errors ++ ["Error submitting to Cuckoo"] },
     .error (.recoverable "Unable to submit to Cuckoo"))
  | .ok none =>
    ({ p.1 with errors := p.1.errors ++ ["Failed to get task for submitted file."] },
     .ok ())
  | .ok (some tid) =>
    if tid = 0 then
      ({ p.1 with errors := p.1.errors ++ ["Failed to get task for submitted file."] },
       .ok ())
    else
      let s1 := { p.1 with taskId := some tid }
      let started := cuckoo_poll_started s1.taskId att.startPolls
      if started = some "started" then
        let q := cuckoo_poll_report s1.taskId att.reportPolls s1
        match q.2 with
        | .error e => (q.1, .error e)
        | .ok st => cuckoo_submit_finish fresh (some st) q.1
      else cuckoo_submit_finish fresh started s1

/-- `cuckoo_submit` with its decorator
`retry(wait_fixed=1000, retry_on_exception=_exclude_chain_ex,
stop_max_attempt_number=3)`: three attempts, chain exceptions
(`RecoverableError`) propagate immediately, anything else is retried. -/
def cuckoo_submit (fresh : Nat → String) (atts : List OuterAttempt)
    (s : SubState) : SubState × Except (Option CErr) Unit :=
  retryExc exclude_chain_ex (cuckoo_submit_attempt fresh) 3 atts s

/-- An attempt script on which submission succeeds with task id `t`, the
guest starts, the task reaches status `reported`, and the report fetch
returns a 404. -/
def missingReportAttempt (t : Nat) : OuterAttempt :=
  { sf := [.status 200 (some t) []],
    startPolls := [some { tid := some t, status := some "running",
                          errors := [], guest_status := some "running" }],
    reportPolls := [(some { tid := some t, status := some "reported",
                            errors := [], guest_status := none },
                     [.status 404 none])] }

/-! ## Report normalization (`cuckooresult.py`)

Output sections are at most two levels deep in the source (the network and
signature sections carry leaf subsections), so sections are modelled by a
top-level record over leaf records. `add_line`/`add_tag` calls are recorded
in `lines`/`tags` in call order. -/

structure LeafSection where
  title : String
  lines : List String := []
  tags : List (String × String) := []
  heur : Option Nat := none
deriving DecidableEq, Repr

structure RSection where
  title : String
  lines : List String := []
  tags : List (String × String) := []
  heur : Option Nat := none
  subsections : List LeafSection := []
deriving DecidableEq, Repr

/-- Python exceptions that the normalization code can raise on malformed
reports. -/
inductive PErr : Type
  | typeError
  | keyError
  | attrError
  | valueError
  | unpackError
  | noneIter
deriving DecidableEq, Repr

/-- External collaborators of `cuckooresult.py`: the `re` regexes, the hash
libraries, and the repository modules `cuckoo.clsids`, `cuckoo.whitelist`
and `cuckoo.signatures`, which are not part of the source tree.  Modelled
from the spec: `clsidTable` is the static CLSID name table, `wlistHash`,
`wlistIp` and `wlistDomain` the static whitelists, and `checkSig` the static
signature severity table (`check_signature`). -/
structure REnv where
  /-- `UUID_RE.findall` -/
  findUuids : String → List String
  /-- `USER_SID_RE.sub("S-1-5-21-<DOMAIN_ID>-<RELATIVE_ID>", key)` -/
  sidSub : String → String
  /-- `DROIDMON_CONN_RE.match`, with the digit-only port group pre-parsed -/
  droidRe : String → Option (String × String × String × Option Nat × String)
  clsidTable : String → Option String
  wlistHash : String → Bool
  wlistIp : String → Bool
  wlistDomain : String → Bool
  sha1 : String → String
  ssdeepHash : String → String
  checkSig : Option String → Nat

/-- `safe_str` from the assemblyline commons, modelled as the identity (it
only sanitizes unprintable characters, which no claim depends on). -/
def safe_str (s : String) : String := s

/-- `safe_str(x)` where `x` may be Python `None` (`str(None) = "None"`). -/
def pySafeOpt (o : Option String) : String := o.getD "None"

/-- Python `str.lower()` (character-wise lowering; structural so that
concrete runs reduce in the kernel). -/
def pyLower (s : String) : String := String.mk (s.data.map Char.toLower)

/-- Python `str.upper()` (character-wise raising; structural so that
concrete runs reduce in the kernel). -/
def pyUpper (s : String) : String := String.mk (s.data.map Char.toUpper)

/-- `ResultSection.add_line` body accumulation: the body is falsy until the
first non-empty line lands in it. -/
def addLine (b l : String) : String := if b = "" then l else b ++ "\n" ++ l

def foldBody (ls : List String) : String := ls.foldl addLine ""

/-! ### Raw report data model

`RawReport` mirrors the untyped JSON tree to the depth the source reads it.
`Option` marks keys whose absence Python's `.get` turns into `None` (and
whose use can then raise); list-valued keys read with a `[]`/`{}` default
are plain lists/records. -/

structure InfoData where
  version : Option String := none
  analysis_id : Option Nat := none
  duration : Option Nat := none
  started : Option Nat := none
  ended : Option Nat := none
deriving DecidableEq, Repr

structure DebugData where
  errors : Option (List String) := none
deriving DecidableEq, Repr

/-- An argument of a `CoCreateInstance` call when the `arguments` value is a
list: a string, a `{name:, value:}` record, or something else. -/
inductive ComItem : Type
  | istr (s : String)
  | idict (name : Option String) (value : Option String)
  | iother
deriving DecidableEq, Repr

/-- The `arguments` value handed to `process_com`: either a dict (whose
iteration yields its keys) or a list of items. -/
inductive ComArgs : Type
  | adict (entries : List (String × Option String))
  | alist (items : List ComItem)
deriving DecidableEq, Repr

structure PCall where
  api : Option String := none
  arguments : Option ComArgs := none
deriving DecidableEq, Repr

structure PProcess where
  calls : Option (List PCall) := none
deriving DecidableEq, Repr

/-- `behavior["summary"]`, read with `.get(key, [])` throughout; an absent
summary behaves as a record of empty lists. -/
structure BSummary where
  keys : List String := []
  regkey_opened : List String := []
  guid : List String := []
  directory_created : List String := []
  directory_removed : List String := []
  dll_loaded : List String := []
  file_deleted : List String := []
  file_exists : List String := []
  file_failed : List String := []
  regkey_written : List String := []
  command_line : List String := []
  downloads_file : List String := []
  file_written : List String := []
  wmi_query : List String := []
  mutex : List String := []
deriving DecidableEq, Repr

structure Behavior where
  summary : BSummary := {}
  processes : Option (List PProcess) := none
  processtree : Option Unit := none
deriving DecidableEq, Repr

/-! Network flow records, typed to the schema the source reads. -/

structure UdpFlow where
  dst : String
  dport : Nat
deriving DecidableEq, Repr

structure SmtpFlow where
  dst : String
  raw : String
deriving DecidableEq, Repr

structure IcmpFlow where
  dst : String
  itype : Nat
deriving DecidableEq, Repr

structure DnsFlow where
  request : String
  answers : Option (List (List (String × String))) := none
deriving DecidableEq, Repr

structure DomainEntry where
  domain : String
deriving DecidableEq, Repr

/-- A canonical `http`/`https` flow (also the shape droidmon appends:
droidmon entries carry a `count`, report entries do not). -/
structure HttpFlow where
  host : String
  port : Option Nat := none
  uri : String := ""
  method : String := ""
  count : Option Nat := none
deriving DecidableEq, Repr

/-- An `http_ex`/`https_ex` flow (alternate capture source). -/
structure HttpExFlow where
  host : String
  dport : Nat
  uri : String := ""
  method : String := ""
deriving DecidableEq, Repr

structure NetworkData where
  hosts : List String := []
  udp : List UdpFlow := []
  tcp : List UdpFlow := []
  smtp : List SmtpFlow := []
  icmp : List IcmpFlow := []
  dns : List DnsFlow := []
  domains : List DomainEntry := []
  http : List HttpFlow := []
  https : List HttpFlow := []
  http_ex : List HttpExFlow := []
  https_ex : List HttpExFlow := []
deriving DecidableEq, Repr

structure DroidEntry where
  cls : Option String := none
deriving DecidableEq, Repr

structure DroidHttpConn where
  request : String
deriving DecidableEq, Repr

structure SmsEntry where
  entries : List (String × String) := []
deriving DecidableEq, Repr

structure DroidmonData where
  raw : Option (List DroidEntry) := none
  httpConnections : Option (List DroidHttpConn) := none
  sms : Option (List SmsEntry) := none
  crypto_keys : Option (List SmsEntry) := none
deriving DecidableEq, Repr

structure SigMark where
  mtype : Option String := none
  category : Option String := none
  ioc : Option String := none
  reg_key : Option String := none
  reg_value : Option String := none
deriving DecidableEq, Repr

structure Signature where
  name : Option String := none
  actor : Option String := none
  description : Option String := none
  categories : List String := []
  families : List String := []
  marks : List SigMark := []
deriving DecidableEq, Repr

/-- The raw report tree.  An `Option` field is `none` when its key is absent
(for `network`, `.get('network', {})` then yields the falsy `{}`; a present
network tree is modelled as truthy, matching every non-empty dict).
`hosts` is modelled in its plain string-list form (the source converts the
alternative list-of-dicts form to it up front). -/
structure RawReport where
  info : Option InfoData := none
  behavior : Option Behavior := none
  network : Option NetworkData := none
  droidmon : Option DroidmonData := none
  debug : Option DebugData := none
  signatures : List Signature := []
deriving DecidableEq, Repr

/-! ### Debug errors (`process_debug`, `cuckooresult.py:180-198`) -/

/-- One "Analysis Errors" section holding every error whose lower-cased text
is non-empty; the section is added only when its body is truthy. -/
def process_debug (d : DebugData) : List RSection :=
  match d.errors with
  | none => []
  | some errs =>
    let ls := errs.filter (fun e => pyLower e ≠ "")
    if foldBody ls ≠ "" then [{ title := "Analysis Errors", lines := ls }]
    else []

/-! ### CLSID resolution and the behavioral summary (`process_behavior`) -/

/-- The accumulating `result_map` of `process_behavior`: registry keys and
the dict of resolved CLSIDs (`name -> GUID`). -/
structure ResultMap where
  regkeys : List String := []
  clsids : List (String × String) := []
  processtree : Option Unit := none
deriving DecidableEq, Repr

/-- `process_clsid` (`cuckooresult.py:98-106`): scan a string for GUIDs,
upper-case each, resolve it against the static CLSID table, and record the
resolved ones. -/
def process_clsid (env : REnv) (key : String) (rm : ResultMap) : ResultMap :=
  let resolve := fun (m : List (String × String)) (u : String) =>
    let u' := pyUpper u
    match env.clsidTable u' with
    | some name => aset m name u'
    | none => m
  { rm with
    clsids := ((env.findUuids (safe_str key)).dedup).foldl resolve rm.clsids }

/-- `process_key` (`cuckooresult.py:201-208`): canonicalize embedded user
SIDs, record the key twice (as the source does), then scan it for CLSIDs. -/
def process_key (env : REnv) (key : String) (rm : ResultMap) : ResultMap :=
  let key' := env.sidSub key
  process_clsid env key'
    { rm with regkeys := rm.regkeys ++ [key', key'] }

/-- `process_com` (`cuckooresult.py:211-220`).  For a dict argument,
`"clsid" in args` checks the keys and the `else` branch iterates the keys;
for a list, `"clsid" in args` checks the elements, and a literal `"clsid"`
element would make `args.get` raise `AttributeError`. -/
def process_com (env : REnv) (args : ComArgs) (rm : ResultMap) :
    Except PErr ResultMap :=
  match args with
  | .adict entries =>
    if entries.any (fun p => p.1 = "clsid") then
      pure (process_clsid env (pySafeOpt ((alookup entries "clsid").join)) rm)
    else
      pure (entries.foldl (fun rm p => process_clsid env p.1 rm) rm)
  | .alist items =>
    if items.contains (.istr "clsid") then throw .attrError
    else
      pure (items.foldl (fun rm it =>
        match it with
        | .istr s => process_clsid env s rm
        | .idict name value =>
          if name = some "ClsId" then process_clsid env (pySafeOpt value) rm
          else rm
        | .iother => rm) rm)

/-- The `result_map` accumulated by `process_behavior` before the summary
sections are emitted: registry keys from `summary.keys` and
`summary.regkey_opened`, then CLSIDs from every `CoCreateInstance` call.
Absent `processes`, `calls`, `api` or `arguments` values raise as in
Python. -/
def behaviorResultMap (env : REnv) (b : Behavior) : Except PErr ResultMap := do
  let rm1 := b.summary.keys.foldl (fun rm k => process_key env k rm) {}
  let rm2 := b.summary.regkey_opened.foldl (fun rm k => process_key env k rm) rm1
  let rm3 := { rm2 with processtree := b.processtree }
  let procs ← match b.processes with
    | some ps => pure ps
    | none => throw .typeError
  procs.foldlM (fun rm p => do
    let calls ← match p.calls with
      | some cs => pure cs
      | none => throw .typeError
    calls.foldlM (fun rm c => do
      let api ← match c.api with
        | some a => pure a
        | none => throw .typeError
      if containsSubstr "CoCreateInstance" api then
        match c.arguments with
        | some args => process_com env args rm
        | none => throw .typeError
      else pure rm) rm) rm3

/-- `result_map` after the `guid` summary entries have also passed through
`process_com` (`cuckooresult.py:290-291`). -/
def behaviorFinalMap (env : REnv) (b : Behavior) : Except PErr ResultMap := do
  let rm ← behaviorResultMap env b
  if b.summary.guid.length > 0 then
    process_com env (.alist (b.summary.guid.map .istr)) rm
  else pure rm

/-- One row of the `result_queries` table (`cuckooresult.py:250-262`). -/
structure QueryEntry where
  name : String
  title : String
  limit : Option Nat
  tagType : Option String
deriving DecidableEq, Repr

def result_queries : List QueryEntry :=
  [⟨"directory_created", "Directories Created", some 25, none⟩,
   ⟨"directory_removed", "Directories Deleted", some 25, none⟩,
   ⟨"dll_loaded", "Modules Loaded", some 25, none⟩,
   ⟨"file_deleted", "Files Deleted", some 25, none⟩,
   ⟨"file_exists", "Check File: Exists", some 25, none⟩,
   ⟨"file_failed", "Check File: Failed", some 25, none⟩,
   ⟨"regkey_written", "Registry Keys Written", some 25, none⟩,
   ⟨"command_line", "Commands", none, none⟩,
   ⟨"downloads_file", "Files Downloads", none, none⟩,
   ⟨"file_written", "Files Written", none, some "file.path"⟩,
   ⟨"wmi_query", "WMI Queries", none, none⟩,
   ⟨"mutex", "Mutexes", none, some "dynamic.mutex"⟩]

/-- `behavior.get("summary", {}).get(q_name, [])`. -/
def summaryGet (s : BSummary) (q : String) : List String :=
  if q = "directory_created" then s.directory_created
  else if q = "directory_removed" then s.directory_removed
  else if q = "dll_loaded" then s.dll_loaded
  else if q = "file_deleted" then s.file_deleted
  else if q = "file_exists" then s.file_exists
  else if q = "file_failed" then s.file_failed
  else if q = "regkey_written" then s.regkey_written
  else if q = "command_line" then s.command_line
  else if q = "downloads_file" then s.downloads_file
  else if q = "file_written" then s.file_written
  else if q = "wmi_query" then s.wmi_query
  else if q = "mutex" then s.mutex
  else []

/-- The section one `result_queries` row produces (`cuckooresult.py:263-288`):
nothing when the summary list is empty; otherwise the (possibly truncated)
list of lines with per-line tags.  The `command_line` dump of each command
to an extracted file is an I/O side effect outside the result and is not
modelled. -/
def querySection (s : BSummary) (q : QueryEntry) : Option RSection :=
  let q_res := summaryGet s q.name
  if q_res = [] then none
  else
    let lim := q.limit
    let q_res2 := match lim with
      | some n => q_res.take n
      | none => q_res
    let title2 := match lim with
      | some n => q.title ++ " (Limit " ++ toString n ++ ")"
      | none => q.title
    some { title := title2,
           lines := q_res2.map safe_str,
           tags := match q.tagType with
             | some tt => q_res2.map (fun ln => (tt, safe_str ln))
             | none => [] }

/-- The summary sections, in `result_queries` order. -/
def behaviorQuerySections (s : BSummary) : List RSection :=
  result_queries.filterMap (querySection s)

/-- `res_sec.add_tag(...)`: the tag lands on the most recently created
summary section; when no summary section exists `res_sec` is `None` and the
attribute access raises. -/
def addTagToLast (secs : List RSection) (t : String × String) :
    Option (List RSection) :=
  match secs.reverse with
  | [] => none
  | last :: rest =>
    some (({ last with tags := last.tags ++ [t] } :: rest).reverse)

/-- The "CLSIDs" section listing every resolved name/GUID pair in sorted
order. -/
def clsidSection (rm : ResultMap) : RSection :=
  { title := "CLSIDs",
    lines := (pySorted (rm.clsids.map (·.1))).map
      (fun n => n ++ " : " ++ pySafeOpt (alookup rm.clsids n)) }

/-- `process_behavior` (`cuckooresult.py:223-318`), returning the emitted
sections and the `executed` verdict.  The CLSID block tags the last summary
section, hashes the sorted resolved GUIDs, compares the SHA-1 against the
static benign whitelist (a hit means "did not really execute"), and emits
the CLSIDs section; the registry block then tags the last summary section
with the ssdeep of the sorted canonicalized keys. -/
def process_behavior (env : REnv) (b : Behavior) :
    Except PErr (List RSection × Bool) := do
  let rm ← behaviorFinalMap env b
  let qsecs := behaviorQuerySections b.summary
  let (qsecs, executed, clsidSecs) ←
    if rm.clsids ≠ [] then do
      let sorted_clsids := pySorted (rm.clsids.map (fun p => safe_str p.2))
      let qsecs' ← match addTagToLast qsecs
          ("dynamic.ssdeep.cls_ids", env.ssdeepHash (String.join sorted_clsids)) with
        | some l => pure l
        | none => throw .attrError
      let clsids_hash := env.sha1 (String.intercalate "," sorted_clsids)
      let executed := !env.wlistHash clsids_hash
      pure (qsecs', executed, [clsidSection rm])
    else pure (qsecs, true, [])
  let qsecs ←
    if rm.regkeys ≠ [] then do
      let rh := env.ssdeepHash (String.join (pySorted (rm.regkeys.map safe_str)))
      match addTagToLast qsecs ("dynamic.ssdeep.regkeys", rh) with
      | some l => pure l
      | none => throw .attrError
    else pure qsecs
  pure (qsecs ++ clsidSecs, executed)

/-! ### Flow grouping and the extended-flow merge (`NetworkFlowCorrelator`) -/

/-- `parse_protocol_data` (`cuckooresult.py:371-380`) viewed per group key:
project each flow onto `group_fields` and append it to its group's list iff
a structurally equal record is not already there. -/
def parse_protocol_data {α β : Type} [DecidableEq β] (groupOf : α → String)
    (proj : α → β) (flows : List α) : String → List β :=
  flows.foldl
    (fun acc f => fun g =>
      if g = groupOf f then
        (if proj f ∈ acc g then acc g else acc g ++ [proj f])
      else acc g)
    (fun _ => [])

/-- The keys of the `defaultdict` built by `parse_protocol_data`, in
insertion order. -/
def parse_keys {α : Type} (groupOf : α → String) (flows : List α) :
    List String :=
  flows.foldl (fun acc f => if groupOf f ∈ acc then acc else acc ++ [groupOf f]) []

/-- Python `dict.get(host)` on a parsed protocol dict. -/
def parse_get {α β : Type} [DecidableEq β] (groupOf : α → String)
    (proj : α → β) (flows : List α) (g : String) : Option (List β) :=
  if g ∈ parse_keys groupOf flows then
    some (parse_protocol_data groupOf proj flows g)
  else none

/-- The projection of a canonical `http`/`https` flow on
`['port', 'uri', 'method']`. -/
structure HttpRec where
  port : Option Nat
  uri : String
  method : String
deriving DecidableEq, Repr

/-- The projection of an `http_ex`/`https_ex` flow on
`['dport', 'uri', 'method']`. -/
structure HttpExRec where
  dport : Nat
  uri : String
  method : String
deriving DecidableEq, Repr

/-- The full URI `_add_ex_data` rebuilds for an extended flow
(`cuckooresult.py:418-421`): the port is spelled out unless it is the
protocol's default port. -/
def full_uri (protocol host : String) (defaultPort : Nat) (r : HttpExRec) :
    String :=
  if r.dport = defaultPort then protocol ++ "://" ++ host ++ r.uri
  else protocol ++ "://" ++ host ++ ":" ++ toString r.dport ++ r.uri

/-- The in-place rewrite of one extended flow (`uri` replaced by the full
URI, `dport` renamed to `port`). -/
def ex_to_canonical (protocol host : String) (defaultPort : Nat)
    (r : HttpExRec) : HttpRec :=
  { port := some r.dport,
    uri := full_uri protocol host defaultPort r,
    method := r.method }

def httpGroupOf (f : HttpFlow) : String := f.host
def httpProj (f : HttpFlow) : HttpRec :=
  { port := f.port, uri := f.uri, method := f.method }
def httpExGroupOf (f : HttpExFlow) : String := f.host
def httpExProj (f : HttpExFlow) : HttpExRec :=
  { dport := f.dport, uri := f.uri, method := f.method }

/-- `_add_ex_data` (`cuckooresult.py:414-430`) applied to the parsed
canonical and extended dicts: per host, rewritten extended flows are merged
into the canonical list under structural equality when the host already has
canonical flows, and otherwise become the host's list.  Returns the dict
keys (in insertion order) and the per-host flow lists. -/
def add_ex_data (protocol : String) (defaultPort : Nat) (ca : List HttpFlow)
    (ex : List HttpExFlow) : List String × (String → List HttpRec) :=
  let caKeys := parse_keys httpGroupOf ca
  let exKeys := parse_keys httpExGroupOf ex
  (caKeys ++ exKeys.filter (fun h => h ∉ caKeys),
   fun h =>
     let exT := (parse_protocol_data httpExGroupOf httpExProj ex h).map
       (ex_to_canonical protocol h defaultPort)
     if h ∈ caKeys then
       mergeInto (parse_protocol_data httpGroupOf httpProj ca h) exT
     else exT)

/-! ### Flow rendering (`dict_list_to_fixedwidth_str_list` and the
host/domain sections) -/

/-- The final column width recorded for key `k`
(`max_lens[k] = max(prev, len(str(v)) + 4)` over every dict). -/
def maxLenFor (dicts : List (List (String × String))) (k : String) : Nat :=
  dicts.foldl
    (fun m d => d.foldl
      (fun m p => if p.1 = k then max m (p.2.length + 4) else m) m) 0

/-- `dict_list_to_fixedwidth_str_list` (`cuckooresult.py:383-409`) over
dicts whose values have already been rendered with `str`. -/
def dict_list_to_fixedwidth_str_list
    (dict_list : List (List (String × String))) (print_keys : Bool := true) :
    List String :=
  dict_list.map (fun d =>
    (pySorted (d.map (·.1))).foldl
      (fun out k =>
        let v := (alookup d k).getD ""
        if print_keys then
          out ++ padRight k k.length ++ ": " ++ padRight v (maxLenFor dict_list k)
        else
          out ++ padRight v (maxLenFor dict_list k))
      "")

/-- Projection of a `udp`/`tcp` flow on `['dport']`. -/
structure PortRec where
  dport : Nat
deriving DecidableEq, Repr

/-- Projection of an `smtp` flow on `['raw']`. -/
structure RawFieldRec where
  rawField : String
deriving DecidableEq, Repr

/-- Projection of an `icmp` flow on `['type']`. -/
structure TypeRec where
  itype : Nat
deriving DecidableEq, Repr

/-- Projection of a `dns` flow on `['answers']`. -/
structure AnsRec where
  answers : Option (List (List (String × String)))
deriving DecidableEq, Repr

/-- One per-protocol flow list as stored in `host_flows`/`domain_flows`. -/
inductive PFlows : Type
  | pUdp (l : List PortRec)
  | pSmtp (l : List RawFieldRec)
  | pIcmp (l : List TypeRec)
  | pHttp (l : List HttpRec)
  | pDns (l : List AnsRec)
deriving DecidableEq, Repr

/-- `str(...)` rendering of each flow record as the dict
`dict_list_to_fixedwidth_str_list` receives. -/
def pflowDicts : PFlows → List (List (String × String))
  | .pUdp l => l.map (fun r => [("dport", toString r.dport)])
  | .pSmtp l => l.map (fun r => [("raw", r.rawField)])
  | .pIcmp l => l.map (fun r => [("type", toString r.itype)])
  | .pHttp l => l.map (fun r =>
      [("port", match r.port with
                | some n => toString n
                | none => "None"),
       ("uri", r.uri), ("method", r.method)])
  | .pDns l => l.map (fun r => [("answers", match r.answers with
      | some a => toString (a.map (fun d => d.map (fun p => p.1 ++ ": " ++ p.2)))
      | none => "None")])

/-- The `uri` tags collected from an http-family flow list
(`if uri: add_tag("network.uri", uri)`). -/
def httpUriTags : PFlows → List (String × String)
  | .pHttp l => (l.filter (fun r => r.uri ≠ "")).map
      (fun r => ("network.uri", r.uri))
  | _ => []

/-- `re.match(r"^[0-9.]+$", hst)`. -/
def isIpLike (s : String) : Bool :=
  !s.data.isEmpty && s.data.all (fun c => c.isDigit || c = '.')

/-- Per-host/per-domain flow tables: `name -> protocol -> flows`, present in
`result_map` only once the first flow list is recorded. -/
def FlowTable : Type := List (String × List (String × PFlows))

instance : DecidableEq FlowTable := by unfold FlowTable; infer_instance

/-- `add_host_flows` / `add_domain_flows` (`cuckooresult.py:568-583`): a
`None` flow list is dropped; otherwise the nested dict entry is written and
the table materializes in `result_map`. -/
def add_flows (tbl : Option FlowTable) (key protocol : String)
    (flows : Option PFlows) : Option FlowTable :=
  match flows with
  | none => tbl
  | some fl =>
    let t := tbl.getD []
    some (aset t key (aset ((alookup t key).getD []) protocol fl))

/-- The flow lines of one domain/protocol entry (`cuckooresult.py:542-558`):
`flow_lines` starts as `None`, is assigned by the http branch and by the dns
branch (only when a truthy `answers` value exists), and iterating a never
assigned `flow_lines` raises `TypeError`. -/
def domainFlowLines (protocol : String) (fl : PFlows) :
    Except PErr (List String × List (String × String)) :=
  let tags := if containsSubstr "http" protocol then httpUriTags fl else []
  let flow_lines : Option (List String) :=
    if containsSubstr "http" protocol then
      some (dict_list_to_fixedwidth_str_list (pflowDicts fl))
    else none
  let flow_lines :=
    if containsSubstr "dns" protocol then
      match fl with
      | .pDns recs =>
        recs.foldl (fun cur r =>
          match r.answers with
          | some (a :: rest) =>
            some (dict_list_to_fixedwidth_str_list (a :: rest))
          | _ => cur) flow_lines
      | _ => flow_lines
    else flow_lines
  match flow_lines with
  | none => .error .noneIter
  | some ls => .ok (ls, tags)

/-- The "IP Flows" subsection (`cuckooresult.py:502-526`): hosts in sorted
order, protocols in sorted order, every flow list rendered unconditionally. -/
def renderHostFlows (hf : FlowTable) : LeafSection × List (String × String) :=
  let host_cc := "(" ++ "??" ++ ")"
  let folded := (pySorted (hf.map (·.1))).foldl
    (fun (acc : List String × List (String × String)) host =>
      let protocols := (alookup hf host).getD []
      let acc := (acc.1, acc.2 ++ [("network.ip", host)])
      (pySorted (protocols.map (·.1))).foldl
        (fun acc protocol =>
          let fl := (alookup protocols protocol).getD (PFlows.pUdp [])
          let uriTags := if containsSubstr "http" protocol then httpUriTags fl
                         else []
          let flow_lines := dict_list_to_fixedwidth_str_list (pflowDicts fl)
          (acc.1 ++ flow_lines.map (fun line =>
             padRight protocol 8 ++ padRight host 19 ++ padRight host_cc 8 ++ line),
           acc.2 ++ uriTags))
        acc)
    ([], [])
  ({ title := "IP Flows", lines := folded.1, heur := some 1001 }, folded.2)

/-- The "Domain Flows" subsection (`cuckooresult.py:528-563`); unlike the
host rendering this one can raise on a dns-only domain without answers. -/
def renderDomainFlows (df : FlowTable) :
    Except PErr (LeafSection × List (String × String)) := do
  let max_domain_len := df.foldl (fun m p => max m (p.1.length + 4)) 0
  let folded ← (pySorted (df.map (·.1))).foldlM
    (fun (acc : List String × List (String × String)) domain => do
      let protocols := (alookup df domain).getD []
      let acc := (acc.1, acc.2 ++ [("network.domain", domain)])
      (pySorted (protocols.map (·.1))).foldlM
        (fun (acc : List String × List (String × String)) protocol => do
          let fl := (alookup protocols protocol).getD (PFlows.pUdp [])
          let (ls, uriTags) ← domainFlowLines protocol fl
          pure (acc.1 ++ ls.map (fun line =>
              padRight protocol 8 ++ padRight domain max_domain_len ++ line),
            acc.2 ++ uriTags))
        acc)
    ([], [])
  pure ({ title := "Domain Flows", lines := folded.1, heur := some 1000 },
        folded.2)

/-- `process_network` (`cuckooresult.py:433-565`): group every protocol's
flows, merge the extended http/https captures, add literal-IP hosts missing
from the report's host list, collect per-host and per-domain flow tables
(skipping the guest IP and whitelisted peers), emit hosts with no flows at
all, and render the "Network Activity" section. -/
def process_network (env : REnv) (nd : NetworkData) (guest_ip : String) :
    Except PErr RSection := do
  let hosts0 := nd.hosts
  let udpKeys := parse_keys (fun f : UdpFlow => f.dst) nd.udp
  let udpGet := parse_get (fun f : UdpFlow => f.dst)
    (fun f => ({ dport := f.dport } : PortRec)) nd.udp
  let tcpKeys := parse_keys (fun f : UdpFlow => f.dst) nd.tcp
  let tcpGet := parse_get (fun f : UdpFlow => f.dst)
    (fun f => ({ dport := f.dport } : PortRec)) nd.tcp
  let smtpKeys := parse_keys (fun f : SmtpFlow => f.dst) nd.smtp
  let smtpGet := parse_get (fun f : SmtpFlow => f.dst)
    (fun f => ({ rawField := f.raw } : RawFieldRec)) nd.smtp
  let icmpKeys := parse_keys (fun f : IcmpFlow => f.dst) nd.icmp
  let icmpGet := parse_get (fun f : IcmpFlow => f.dst)
    (fun f => ({ itype := f.itype } : TypeRec)) nd.icmp
  let dnsGet := parse_get (fun f : DnsFlow => f.request)
    (fun f => ({ answers := f.answers } : AnsRec)) nd.dns
  let domainKeys := parse_keys (fun f : DomainEntry => f.domain) nd.domains
  let http := add_ex_data "http" 80 nd.http nd.http_ex
  let https := add_ex_data "https" 443 nd.https nd.https_ex
  let httpGet := fun h => if h ∈ http.1 then some (http.2 h) else none
  let httpsGet := fun h => if h ∈ https.1 then some (https.2 h) else none
  let hosts1 := [udpKeys, tcpKeys, http.1, https.1, icmpKeys, smtpKeys].foldl
    (fun hs ks => ks.foldl
      (fun hs h => if h ∉ hs ∧ isIpLike h then hs ++ [h] else hs) hs)
    hosts0
  let skipHost := fun h => h = guest_ip || env.wlistIp h
  let hf := hosts1.foldl
    (fun (hf : Option FlowTable) host =>
      if skipHost host then hf
      else
        let hf := add_flows hf host "udp" ((udpGet host).map .pUdp)
        let hf := add_flows hf host "tcp" ((tcpGet host).map .pUdp)
        let hf := add_flows hf host "smtp" ((smtpGet host).map .pSmtp)
        let hf := add_flows hf host "icmp" ((icmpGet host).map .pIcmp)
        let hf := add_flows hf host "http" ((httpGet host).map .pHttp)
        add_flows hf host "https" ((httpsGet host).map .pHttp))
    none
  let hf := match hf with
    | some t => some t
    | none =>
      if hosts1 ≠ [] then
        some (hosts1.foldl
          (fun (t : FlowTable) h => if skipHost h then t else aset t h []) [])
      else none
  let df := domainKeys.foldl
    (fun (df : Option FlowTable) domain =>
      if env.wlistDomain domain then df
      else
        let df := add_flows df domain "dns" ((dnsGet domain).map .pDns)
        let df := add_flows df domain "http" ((httpGet domain).map .pHttp)
        add_flows df domain "https" ((httpsGet domain).map .pHttp))
    none
  let (ipSubs, ipTags) := match hf with
    | some t =>
      let r := renderHostFlows t
      ([r.1], r.2)
    | none => ([], [])
  let (dSubs, dTags) ← match df with
    | some t => do
      let r ← renderDomainFlows t
      pure ([r.1], r.2)
    | none => pure ([], [])
  pure { title := "Network Activity",
         tags := ipTags ++ dTags,
         subsections := ipSubs ++ dSubs }

/-! ### Android results (`process_droidmon`, `cuckooresult.py:109-177`) -/

/-- Increment `entry['count']` on the first http entry matching the droidmon
request, raising `KeyError` when the matched entry has no count (report
entries do not); `none` when nothing matches.  The port comparison is the
source's `entry['port'] == port` where `port` is still the regex *string*
group, so it only succeeds when both sides are `None`. -/
def bumpSeen (uri meth : String) (port : Option Nat) :
    List HttpFlow → Except PErr (Option (List HttpFlow))
  | [] => pure none
  | e :: rest =>
    if e.uri = uri && e.method = meth && (e.port = none && port = none) then
      match e.count with
      | some c => pure (some ({ e with count := some (c + 1) } :: rest))
      | none => throw .keyError
    else do
      match ← bumpSeen uri meth port rest with
      | some rest' => pure (some (e :: rest'))
      | none => pure none

/-- `process_droidmon`: fingerprint the loaded Java classes, merge droidmon
http connections into the network map (`network['http']` raises `KeyError`
when the report has no network tree), and emit SMS and crypto-key sections.
The `droidmon_res` section itself is created but never added to the result
(as in the source), so its tags are discarded. -/
def process_droidmon (env : REnv) (dm : DroidmonData)
    (net : Option NetworkData) :
    Except PErr (List RSection × Option NetworkData) := do
  match dm.raw with
  | some entries =>
    let classes := entries.foldl
      (fun cs e => match e.cls with
        | some c => if c ∈ cs then cs else cs ++ [c]
        | none => cs) []
    if classes.length > 0 then
      let parts := (env.ssdeepHash
        (String.join (pySorted (classes.map safe_str)))).splitOn ":"
      if parts.length = 3 then pure () else throw .unpackError
    else pure ()
  | none => pure ()
  let net ← match dm.httpConnections with
    | some conns => do
      let nd ← match net with
        | some nd => pure nd
        | none => throw .keyError
      let http ← conns.foldlM
        (fun (http : List HttpFlow) conn => do
          match env.droidRe conn.request with
          | none => pure http
          | some (meth, uri, domain, port, _ver) => do
            match ← bumpSeen uri meth port http with
            | some http' => pure http'
            | none =>
              pure (http ++ [{ host := domain, port := port, uri := uri,
                               method := meth, count := some 1 }])) nd.http
      pure (some { nd with http := http })
    | none => pure net
  let smsSecs ← match dm.sms with
    | some sms => do
      let _tags ← sms.foldlM
        (fun (ts : List (String × String)) s =>
          match alookup s.entries "dest_number" with
          | some v => pure (ts ++ [("info.phone_number", v)])
          | none => throw (PErr.keyError)) []
      pure [({ title := "SMS Activity",
               lines := dict_list_to_fixedwidth_str_list (sms.map (·.entries)),
               heur := some 1 } : RSection)]
    | none => pure ([] : List RSection)
  let cryptoSecs ← match dm.crypto_keys with
    | some cks => do
      let _tags ← cks.foldlM
        (fun (ts : List (String × String)) s =>
          match alookup s.entries "type" with
          | some v => pure (ts ++ [("technique.crypto", v)])
          | none => throw (PErr.keyError)) []
      pure [({ title := "Crypto Keys",
               lines := dict_list_to_fixedwidth_str_list (cks.map (·.entries)),
               heur := some 2 } : RSection)]
    | none => pure ([] : List RSection)
  pure (smsSecs ++ cryptoSecs, net)

/-! ### Signatures (`process_signatures`, `cuckooresult.py:321-368`) -/

def skipped_sigs : List String :=
  ["dead_host", "has_authenticode", "network_icmp", "network_http",
   "allocates_rwx", "has_pdb"]

def print_iocs : List String :=
  ["dropper", "suspicious_write_exe", "suspicious_process",
   "uses_windows_utilities", "persistence_autorun"]

def ioc_categories : List String := ["url", "file", "cmdline", "request"]

/-- One matched signature's contribution to the "Signatures" section: a
subsection per signature plus category/family/IOC lines and tags on the
parent. -/
def process_one_signature (env : REnv) (acc : RSection) (sig : Signature) :
    Except PErr RSection := do
  if (match sig.name with
      | some n => decide (n ∈ skipped_sigs)
      | none => false) then pure acc
  else do
    let _sig_id := env.checkSig sig.name
    let nm ← match sig.name with
      | some n => pure n
      | none => throw .typeError
    let description := sig.description.getD ""
    let sub : LeafSection :=
      { title := "Signature: " ++ nm, lines := [description],
        heur := some (env.checkSig sig.name) }
    let acc := { acc with subsections := acc.subsections ++ [sub] }
    let acc :=
      if sig.categories.length > 0 then
        { acc with
          lines := acc.lines ++
            ["\tCategories: " ++ String.intercalate ","
              (sig.categories.map safe_str)],
          tags := acc.tags ++
            sig.categories.map (fun c => ("dynamic.signature.category", c)) }
      else acc
    let acc :=
      if sig.families.length > 0 then
        { acc with
          lines := acc.lines ++
            ["\tFamilies: " ++ String.intercalate ","
              (sig.families.map safe_str)],
          tags := acc.tags ++
            sig.families.map (fun f => ("dynamic.signature.category", f)) }
      else acc
    let actor := sig.actor.getD ""
    let acc :=
      if actor ≠ "" then
        { acc with tags := acc.tags ++ [("attribution.actor", actor)] }
      else acc
    if nm ∈ print_iocs then
      sig.marks.foldlM
        (fun (acc : RSection) mark => do
          if mark.mtype = some "ioc" ∧
             (match mark.category with
              | some c => decide (c ∈ ioc_categories)
              | none => false) = true then
            match mark.ioc with
            | some i => pure { acc with lines := acc.lines ++ ["\tIOC: " ++ i] }
            | none => throw PErr.keyError
          else if mark.mtype = some "generic" ∧ mark.reg_key.isSome ∧
                  mark.reg_value.isSome then
            pure { acc with lines := acc.lines ++
              ["\tIOC: " ++ mark.reg_key.getD "" ++ " = " ++
               mark.reg_value.getD ""] }
          else pure acc) acc
    else pure acc

/-- `process_signatures`: the "Signatures" section over all matched
signatures (called only when the list is non-empty). -/
def process_signatures (env : REnv) (sigs : List Signature) :
    Except PErr RSection :=
  sigs.foldlM (process_one_signature env) ({ title := "Signatures" } : RSection)

/-! ### Top-level dispatch (`generate_al_result`, `cuckooresult.py:36-95`) -/

/-- The "Analysis Information" section (its KEY_VALUE JSON body carries no
information any claim inspects and is not modelled line by line). -/
def infoSection (_i : InfoData) : RSection :=
  { title := "Analysis Information" }

/-- The informational section emitted when the sample is judged not to have
really executed. -/
def noexecSection (file_ext : String) : RSection :=
  { title := "Notes",
    lines := ["Unrecognized file type: No program available to execute a file with the following extension: " ++ file_ext] }

/-- `generate_al_result`: analysis info, debug errors, behavioral summary,
droidmon; then — only when the behavioral pass judged the sample really
executed — network activity and signatures, and otherwise the single
"Notes" informational section.  Returns the emitted sections in order and
the function's boolean result. -/
def generate_al_result (env : REnv) (r : RawReport) (file_ext : String)
    (guest_ip : String) : Except PErr (List RSection × Bool) := do
  let infoSecs : List RSection := match r.info with
    | some i => [infoSection i]
    | none => []
  let debugSecs : List RSection := match r.debug with
    | some d => process_debug d
    | none => []
  let (behaviorSecs, executed) ← match r.behavior with
    | some b => process_behavior env b
    | none => pure ([], true)
  let (droidSecs, network) ← match r.droidmon with
    | some dm => process_droidmon env dm r.network
    | none => pure ([], r.network)
  let tailSecs ←
    if executed then do
      let netSecs ← match network with
        | some nd => do
          let s ← process_network env nd guest_ip
          pure [s]
        | none => pure []
      let sigSecs ← if r.signatures ≠ [] then do
          let s ← process_signatures env r.signatures
          pure [s]
        else pure []
      pure (netSecs ++ sigSecs)
    else
      pure [noexecSection file_ext]
  pure (infoSecs ++ debugSecs ++ behaviorSecs ++ droidSecs ++ tailSecs, true)

/-! ## Shared test fixtures -/

/-- A concrete normalization environment for concrete evaluations. -/
def testEnv : REnv :=
  { findUuids := fun s => if s = "guidstr" then ["abc"] else []
    sidSub := fun s => s
    droidRe := fun _ => none
    clsidTable := fun u => if u = "ABC" then some "Widget" else none
    wlistHash := fun h => h = "HH"
    wlistIp := fun _ => false
    wlistDomain := fun _ => false
    sha1 := fun _ => "HH"
    ssdeepHash := fun _ => "3:a:b"
    checkSig := fun _ => 0 }

/-! ## Claims about `check_dropped` (C1, C9) -/

/-- C1 (counterexample): the fuzzy-dedup decision of `check_dropped` is NOT
monotone upward in the configured threshold: with a similarity score of 50,
threshold 40 skips the file as a duplicate but the higher threshold 60 does
not, so raising the threshold accepts fewer items, not more. -/
theorem c1_counterexample :
    dedupSkip (fun _ _ => 50) 40 ["h0"] "h1" = true ∧
    dedupSkip (fun _ _ => 50) 60 ["h0"] "h1" = false := by
  exact ⟨rfl, rfl⟩

/-- C1 (amended): the fuzzy-dedup decision of `check_dropped` is antitone in
the configured threshold — lowering the threshold can only accept more items
as duplicates, never fewer — and the deduper accepts the second blob as a
duplicate whenever its ssdeep similarity score against some previously
accepted blob is at least (not under) the configured threshold. -/
theorem c1_amended (cmp : String → String → Nat) (pct pct' : Nat)
    (added : List String) (h : String) :
    (pct' ≤ pct → dedupSkip cmp pct added h = true →
      dedupSkip cmp pct' added h = true) ∧
    (∀ seen ∈ added, pct ≤ cmp h seen → dedupSkip cmp pct added h = true) := by
  constructor
  · intro hle hskip
    simp only [dedupSkip, List.any_eq_true, decide_eq_true_eq] at hskip ⊢
    obtain ⟨seen, hm, hc⟩ := hskip
    exact ⟨seen, hm, le_trans hle hc⟩
  · intro seen hm hc
    simp only [dedupSkip, List.any_eq_true, decide_eq_true_eq]
    exact ⟨seen, hm, hc⟩

theorem c1_witness :
    dedupSkip (fun _ _ => 50) 40 ["h0"] "h1" = true := by
  exact (c1_amended (fun _ _ => 50) 50 40 ["h0"] "h1").1 (by decide)
    (by decide)

/-- The per-file step of `check_dropped` under deep scan: no similarity
state is consulted or updated; the file is extracted iff its md5 differs
from the submitted file's and it clears the static whitelist. -/
theorem check_dropped_file_deep (ssdHash : Bytes → String)
    (cmp : String → String → Nat) (pct : Nat) (md5 : Bytes → String)
    (wlh wld : String → Bool) (task_md5 : String) (st : DropState)
    (f : DroppedFile) :
    check_dropped_file ssdHash cmp pct md5 wlh wld true task_md5 st f =
      if md5 f.data ≠ task_md5 ∧
         !(wlh (md5 f.data) || wld f.name || f.name.endsWith "_info.txt") then
        { st with extracted := st.extracted ++ [f] }
      else st := by
  simp only [check_dropped_file, if_true]
  by_cases h1 : md5 f.data = task_md5
  · simp [h1]
  · by_cases h2 : (wlh (md5 f.data) || wld f.name ||
        f.name.endsWith "_info.txt") = true
    · simp [h1, h2]
    · simp [h1, h2]

theorem check_dropped_deep_foldl (ssdHash : Bytes → String)
    (cmp : String → String → Nat) (pct : Nat) (md5 : Bytes → String)
    (wlh wld : String → Bool) (task_md5 : String) (files : List DroppedFile)
    (st : DropState) :
    (files.foldl
      (check_dropped_file ssdHash cmp pct md5 wlh wld true task_md5)
      st).extracted =
      st.extracted ++ files.filter (fun f => md5 f.data ≠ task_md5 &&
        !(wlh (md5 f.data) || wld f.name || f.name.endsWith "_info.txt")) := by
  induction files generalizing st with
  | nil => simp
  | cons f rest ih =>
    simp only [List.foldl_cons, List.filter_cons]
    rw [check_dropped_file_deep, ih]
    by_cases h1 : md5 f.data = task_md5
    · simp [h1]
    · by_cases h2 : (wlh (md5 f.data) || wld f.name ||
          f.name.endsWith "_info.txt") = true
      · simp [h1, h2]
      · simp [h1, h2]

/-- C9: when the request is a deep scan, `check_dropped` performs no
similarity-hash comparison at all — its output does not depend on the ssdeep
hash, the comparison function, or the threshold — and it extracts exactly
the dropped files whose exact md5 differs from the submitted file's and that
clear the static whitelist (hash whitelist, name whitelist, `_info.txt`
suffix). -/
theorem c9_deep_scan_no_fuzzy (h1 h2 : Bytes → String)
    (cmp1 cmp2 : String → String → Nat) (pct1 pct2 : Nat)
    (md5 : Bytes → String) (wlh wld : String → Bool) (task_md5 : String)
    (files : List DroppedFile) :
    check_dropped h1 cmp1 pct1 md5 wlh wld true task_md5 files =
      files.filter (fun f => md5 f.data ≠ task_md5 &&
        !(wlh (md5 f.data) || wld f.name || f.name.endsWith "_info.txt")) ∧
    check_dropped h1 cmp1 pct1 md5 wlh wld true task_md5 files =
      check_dropped h2 cmp2 pct2 md5 wlh wld true task_md5 files := by
  have key : ∀ (hh : Bytes → String) (cc : String → String → Nat) (pp : Nat),
      check_dropped hh cc pp md5 wlh wld true task_md5 files =
        files.filter (fun f => md5 f.data ≠ task_md5 &&
          !(wlh (md5 f.data) || wld f.name || f.name.endsWith "_info.txt")) := by
    intro hh cc pp
    unfold check_dropped
    rw [check_dropped_deep_foldl]
    simp
  exact ⟨key h1 cmp1 pct1, (key h1 cmp1 pct1).trans (key h2 cmp2 pct2).symm⟩

/-! ## Claim about task deletion on exit paths (C2) -/

/-- C2 (counterexample): a job that failed with a processing exception and
still holds task id 1 issues the delete, but the delete's connection error
persists through both retry attempts and the resulting `RecoverableError`
replaces the job's actual outcome — the delete failure IS escalated. -/
theorem c2_counterexample :
    executeFinish (.error (.genericExc "processing failed")) (some 1)
      .connError .connError =
      (true, .error (some (.recoverable "Unable to reach the Cuckoo nest"))) := by
  rfl

/-- C2 (amended): on every exit path of `execute` with a non-null task
identifier a delete is issued (and never when the identifier is null), and a
delete failure reported as an HTTP status — any status code — is only
logged, never escalated: the job's actual outcome is preserved.  But a
delete attempt that raises (timeout or connection error) on both tries
propagates its exception in place of the job's outcome, as the
counterexample shows. -/
theorem c2_amended (outcome : Except CErr Unit) (tid : Option Nat)
    (a1 a2 : DeleteResp) (k c1 c2 : Nat) :
    (tid = none →
      executeFinish outcome tid a1 a2 = (false, outcome.mapError some)) ∧
    (tid.isSome → (executeFinish outcome tid a1 a2).1 = true) ∧
    (executeFinish outcome (some k) (.status c1) (.status c2) =
      (true, outcome.mapError some)) := by
  refine ⟨?_, ?_, ?_⟩
  · intro h
    subst h
    rfl
  · intro h
    match tid, h with
    | some t, _ =>
      simp only [executeFinish]
      cases hc : (cuckoo_delete_task a1 a2 (some t)).2 <;> simp [hc]
  · simp only [executeFinish, cuckoo_delete_task, retryExc,
      cuckoo_delete_task_attempt]
    by_cases hc : c1 ≠ 200 <;> simp [hc]

theorem c2_witness :
    executeFinish (.error (.genericExc "job failed")) none .timeout .timeout =
      (false, .error (some (.genericExc "job failed"))) := by
  exact (c2_amended (.error (.genericExc "job failed")) none .timeout .timeout
    0 0 0).1 rfl

/-! ## Claim about behavioral summary caps (C7) -/

/-- C7: every summary category section produced through the
`result_queries` table respects its limit — a limited category emits at most
its cap of lines, an unlimited category emits every summary item — and the
table caps exactly the seven directory/module/file/registry categories at
25 while commands, downloads, written files, WMI queries and mutexes are
unlimited. -/
theorem c7_category_limits :
    (∀ (s : BSummary) (e : QueryEntry) (sec : RSection),
       e ∈ result_queries → querySection s e = some sec →
       ((∀ n, e.limit = some n → sec.lines.length ≤ n) ∧
        (e.limit = none → sec.lines = (summaryGet s e.name).map safe_str))) ∧
    (result_queries.filter (fun e => e.limit.isSome)).map (·.name) =
      ["directory_created", "directory_removed", "dll_loaded", "file_deleted",
       "file_exists", "file_failed", "regkey_written"] ∧
    (result_queries.filter (fun e => e.limit.isNone)).map (·.name) =
      ["command_line", "downloads_file", "file_written", "wmi_query",
       "mutex"] ∧
    (∀ e ∈ result_queries, e.limit = none ∨ e.limit = some 25) := by
  refine ⟨?_, by decide, by decide, by decide⟩
  intro s e sec _he hsec
  simp only [querySection] at hsec
  split at hsec
  · exact absurd hsec (by simp)
  · constructor
    · intro n hn
      rw [hn] at hsec
      simp only [] at hsec
      cases hsec
      simp [List.length_take]
    · intro hn
      rw [hn] at hsec
      cases hsec
      rfl

theorem c7_witness :
    querySection
      ({ directory_created := ["a", "b"] } : BSummary)
      (⟨"directory_created", "Directories Created", some 25, none⟩ : QueryEntry) =
      some { title := "Directories Created (Limit 25)", lines := ["a", "b"] } ∧
    (2 : Nat) ≤ 25 := by
  have h := (c7_category_limits.1
    ({ directory_created := ["a", "b"] } : BSummary)
    ⟨"directory_created", "Directories Created", some 25, none⟩
    { title := "Directories Created (Limit 25)", lines := ["a", "b"] }
    (by decide) (by decide))
  refine ⟨by decide, ?_⟩
  exact h.1 25 rfl

/-! ## Claim about `process_network` totality (C10) -/

/-- C10: `process_network` is not total — on a report whose only flows for a
non-whitelisted domain are DNS records without an `answers` value (and no
http/https flows for it), the domain rendering loop iterates the never
assigned `flow_lines` (`None`) and raises instead of producing a section. -/
theorem c10_dns_without_answers_raises :
    process_network testEnv
      { dns := [{ request := "bad.com" }],
        domains := [{ domain := "bad.com" }] } "10.10.10.10" =
      .error .noneIter := by
  rfl

/-! ## Claim about the extended-flow merge (C8) -/

section ParseLemmas

variable {α β : Type} [DecidableEq β] (groupOf : α → String) (proj : α → β)

/-- Membership after one `parse_protocol_data` step. -/
theorem mem_parse_step (acc : String → List β) (f : α) (g : String) (x : β) :
    x ∈ (if g = groupOf f then
          (if proj f ∈ acc g then acc g else acc g ++ [proj f])
         else acc g) ↔
      x ∈ acc g ∨ (groupOf f = g ∧ proj f = x) := by
  by_cases hg : g = groupOf f
  · rw [if_pos hg]
    by_cases hin : proj f ∈ acc g
    · rw [if_pos hin]
      constructor
      · exact fun hm => Or.inl hm
      · rintro (hm | ⟨-, hp⟩)
        · exact hm
        · exact hp ▸ hin
    · rw [if_neg hin]
      simp only [List.mem_append, List.mem_singleton]
      constructor
      · rintro (hm | hm)
        · exact Or.inl hm
        · exact Or.inr ⟨hg.symm, hm.symm⟩
      · rintro (hm | ⟨-, hp⟩)
        · exact Or.inl hm
        · exact Or.inr hp.symm
  · rw [if_neg hg]
    constructor
    · exact fun hm => Or.inl hm
    · rintro (hm | ⟨hgf, -⟩)
      · exact hm
      · exact absurd hgf.symm hg

theorem mem_parse_foldl (l : List α) (acc : String → List β) (g : String)
    (x : β) :
    x ∈ (l.foldl
      (fun acc f => fun g' =>
        if g' = groupOf f then
          (if proj f ∈ acc g' then acc g' else acc g' ++ [proj f])
        else acc g')
      acc) g ↔
      x ∈ acc g ∨ ∃ f ∈ l, groupOf f = g ∧ proj f = x := by
  induction l generalizing acc with
  | nil => simp
  | cons f rest ih =>
    simp only [List.foldl_cons]
    rw [ih, mem_parse_step groupOf proj acc f g x]
    simp only [List.exists_mem_cons_iff]
    tauto

theorem mem_parse_protocol_data (l : List α) (g : String) (x : β) :
    x ∈ parse_protocol_data groupOf proj l g ↔
      ∃ f ∈ l, groupOf f = g ∧ proj f = x := by
  unfold parse_protocol_data
  rw [mem_parse_foldl]
  simp

theorem nodup_parse_foldl (l : List α) :
    ∀ (acc : String → List β), (∀ g, (acc g).Nodup) →
      ∀ g, ((l.foldl
        (fun acc f => fun g' =>
          if g' = groupOf f then
            (if proj f ∈ acc g' then acc g' else acc g' ++ [proj f])
          else acc g')
        acc) g).Nodup := by
  induction l with
  | nil => exact fun acc hacc g => hacc g
  | cons f rest ih =>
    intro acc hacc g
    simp only [List.foldl_cons]
    apply ih
    intro gg
    show (if gg = groupOf f then
        (if proj f ∈ acc gg then acc gg else acc gg ++ [proj f])
      else acc gg).Nodup
    by_cases hg : gg = groupOf f
    · rw [if_pos hg]
      by_cases hin : proj f ∈ acc gg
      · simpa [hin] using hacc gg
      · rw [if_neg hin]
        simp [List.nodup_append, hacc gg, hin]
    · simpa [if_neg hg] using hacc gg

theorem nodup_parse_protocol_data (l : List α) (g : String) :
    (parse_protocol_data groupOf proj l g).Nodup := by
  unfold parse_protocol_data
  exact nodup_parse_foldl groupOf proj l _ (by simp) g

theorem mem_parse_keys_foldl (l : List α) (acc : List String) (g : String) :
    g ∈ (l.foldl
      (fun acc f => if groupOf f ∈ acc then acc else acc ++ [groupOf f])
      acc) ↔ g ∈ acc ∨ ∃ f ∈ l, groupOf f = g := by
  induction l generalizing acc with
  | nil => simp
  | cons f rest ih =>
    simp only [List.foldl_cons]
    rw [ih]
    have hstep : g ∈ (if groupOf f ∈ acc then acc else acc ++ [groupOf f]) ↔
        g ∈ acc ∨ groupOf f = g := by
      by_cases hin : groupOf f ∈ acc
      · simp only [if_pos hin]
        constructor
        · exact fun hm => Or.inl hm
        · rintro (hm | hm)
          · exact hm
          · exact hm ▸ hin
      · simp only [if_neg hin, List.mem_append, List.mem_singleton]
        constructor
        · rintro (hm | hm)
          · exact Or.inl hm
          · exact Or.inr hm.symm
        · rintro (hm | hm)
          · exact Or.inl hm
          · exact Or.inr hm.symm
    rw [hstep]
    simp only [List.exists_mem_cons_iff]
    tauto

theorem mem_parse_keys (l : List α) (g : String) :
    g ∈ parse_keys groupOf l ↔ ∃ f ∈ l, groupOf f = g := by
  unfold parse_keys
  rw [mem_parse_keys_foldl]
  simp

end ParseLemmas

/-- Two strings are equal when a common prefix-extension of them is. -/
theorem string_append_left_cancel (a b c : String) (h : a ++ b = a ++ c) :
    b = c := by
  have hd : a.data ++ b.data = a.data ++ c.data := by
    have h1 := congrArg String.data h
    simpa [String.data_append] using h1
  have hbc := List.append_cancel_left hd
  cases b
  cases c
  exact congrArg String.mk hbc

/-- The `_add_ex_data` rewrite is injective per host: the rewritten `port`
field determines `dport`, which pins down the URI prefix, and string
concatenation is left-cancellative. -/
theorem ex_to_canonical_injective (p h : String) (d : Nat) :
    Function.Injective (ex_to_canonical p h d) := by
  intro r1 r2 heq
  have hport : r1.dport = r2.dport := by
    have := congrArg HttpRec.port heq
    simpa [ex_to_canonical] using this
  have hmeth : r1.method = r2.method := by
    have := congrArg HttpRec.method heq
    simpa [ex_to_canonical] using this
  have huri0 : full_uri p h d r1 = full_uri p h d r2 := by
    have := congrArg HttpRec.uri heq
    simpa [ex_to_canonical] using this
  have huri : r1.uri = r2.uri := by
    unfold full_uri at huri0
    rw [hport] at huri0
    by_cases hd2 : r2.dport = d
    · rw [if_pos hd2, if_pos hd2] at huri0
      exact string_append_left_cancel _ _ _ huri0
    · rw [if_neg hd2, if_neg hd2] at huri0
      exact string_append_left_cancel _ _ _ huri0
  cases r1
  cases r2
  simp_all

/-- Per-host membership in the merged http/https dict: a record is there iff
it is the projection of a canonical flow for that host or the rewrite of an
extended flow for that host. -/
theorem mem_add_ex_data (protocol : String) (defaultPort : Nat)
    (ca : List HttpFlow) (ex : List HttpExFlow) (h : String) (x : HttpRec) :
    x ∈ (add_ex_data protocol defaultPort ca ex).2 h ↔
      ((∃ f ∈ ca, f.host = h ∧ httpProj f = x) ∨
       (∃ f ∈ ex, f.host = h ∧
          ex_to_canonical protocol h defaultPort (httpExProj f) = x)) := by
  simp only [add_ex_data]
  by_cases hk : h ∈ parse_keys httpGroupOf ca
  · rw [if_pos hk, mem_mergeInto, mem_parse_protocol_data, List.mem_map]
    constructor
    · rintro (⟨f, hf, hg, hp⟩ | ⟨y, hy, hxy⟩)
      · exact Or.inl ⟨f, hf, hg, hp⟩
      · rw [mem_parse_protocol_data] at hy
        obtain ⟨f, hf, hg, hp⟩ := hy
        exact Or.inr ⟨f, hf, hg, by rw [hp]; exact hxy⟩
    · rintro (⟨f, hf, hg, hp⟩ | ⟨f, hf, hg, hp⟩)
      · exact Or.inl ⟨f, hf, hg, hp⟩
      · refine Or.inr ⟨httpExProj f, ?_, hp⟩
        rw [mem_parse_protocol_data]
        exact ⟨f, hf, hg, rfl⟩
  · rw [if_neg hk, List.mem_map]
    constructor
    · rintro ⟨y, hy, hxy⟩
      rw [mem_parse_protocol_data] at hy
      obtain ⟨f, hf, hg, hp⟩ := hy
      exact Or.inr ⟨f, hf, hg, by rw [hp]; exact hxy⟩
    · rintro (⟨f, hf, hg, hp⟩ | ⟨f, hf, hg, hp⟩)
      · exact absurd ((mem_parse_keys httpGroupOf ca h).mpr
          ⟨f, hf, hg⟩) hk
      · refine ⟨httpExProj f, ?_, hp⟩
        rw [mem_parse_protocol_data]
        exact ⟨f, hf, hg, rfl⟩

/-- C8: merging the extended http/https flows into the canonical set yields,
for every host, a flow list without structurally-equal duplicates, and the
per-host set of flow records is invariant under any reordering of the
canonical and extended inputs. -/
theorem c8_merge_nodup_and_order_free (protocol : String) (defaultPort : Nat)
    (ca ca' : List HttpFlow) (ex ex' : List HttpExFlow) (h : String)
    (hca : ca'.Perm ca) (hex : ex'.Perm ex) :
    ((add_ex_data protocol defaultPort ca ex).2 h).Nodup ∧
    (∀ x, x ∈ (add_ex_data protocol defaultPort ca' ex').2 h ↔
          x ∈ (add_ex_data protocol defaultPort ca ex).2 h) := by
  constructor
  · simp only [add_ex_data]
    by_cases hk : h ∈ parse_keys httpGroupOf ca
    · rw [if_pos hk]
      exact nodup_mergeInto _ _ (nodup_parse_protocol_data _ _ ca h)
    · rw [if_neg hk]
      exact (nodup_parse_protocol_data httpExGroupOf httpExProj ex h).map
        (ex_to_canonical_injective protocol h defaultPort)
  · intro x
    rw [mem_add_ex_data, mem_add_ex_data]
    constructor
    · rintro (⟨f, hf, hrest⟩ | ⟨f, hf, hrest⟩)
      · exact Or.inl ⟨f, hca.mem_iff.mp hf, hrest⟩
      · exact Or.inr ⟨f, hex.mem_iff.mp hf, hrest⟩
    · rintro (⟨f, hf, hrest⟩ | ⟨f, hf, hrest⟩)
      · exact Or.inl ⟨f, hca.mem_iff.mpr hf, hrest⟩
      · exact Or.inr ⟨f, hex.mem_iff.mpr hf, hrest⟩

theorem c8_witness :
    ((add_ex_data "http" 80
        [{ host := "a.com", port := some 80, uri := "/x", method := "GET" }]
        [{ host := "a.com", dport := 80, uri := "/x", method := "GET" },
         { host := "a.com", dport := 81, uri := "/y", method := "GET" }]).2
      "a.com").Nodup ∧
    (({ port := some 81, uri := "http://a.com:81/y", method := "GET" } : HttpRec) ∈
      (add_ex_data "http" 80
        [{ host := "a.com", port := some 80, uri := "/x", method := "GET" }]
        [{ host := "a.com", dport := 81, uri := "/y", method := "GET" },
         { host := "a.com", dport := 80, uri := "/x", method := "GET" }]).2
      "a.com" ↔
     ({ port := some 81, uri := "http://a.com:81/y", method := "GET" } : HttpRec) ∈
      (add_ex_data "http" 80
        [{ host := "a.com", port := some 80, uri := "/x", method := "GET" }]
        [{ host := "a.com", dport := 80, uri := "/x", method := "GET" },
         { host := "a.com", dport := 81, uri := "/y", method := "GET" }]).2
      "a.com") := by
  have h := c8_merge_nodup_and_order_free "http" 80
    [{ host := "a.com", port := some 80, uri := "/x", method := "GET" }]
    [{ host := "a.com", port := some 80, uri := "/x", method := "GET" }]
    [{ host := "a.com", dport := 80, uri := "/x", method := "GET" },
     { host := "a.com", dport := 81, uri := "/y", method := "GET" }]
    [{ host := "a.com", dport := 81, uri := "/y", method := "GET" },
     { host := "a.com", dport := 80, uri := "/x", method := "GET" }]
    "a.com" (List.Perm.refl _) (List.Perm.swap _ _ _)
  exact ⟨h.1, h.2 _⟩

/-! ## Claims about the submission retry machinery (C4, C5) -/

/-- A random-word rename always preserves the extension component. -/
theorem extOf_fresh_rename (w x : String) :
    extOf (w ++ "." ++ extOf x) = extOf x :=
  extOf_rename _ _ (dotFree_extOf x)

/-- C4: when the task reaches status `reported` but the report fetch
returns a 404, one submission attempt turns it into the `missing_report`
status, renames the file to a fresh random word carrying the old extension,
and raises the plain exception that restarts the whole submission (instead
of re-polling); the outer retry runs at most 3 such attempts — any further
scripted attempts are never consumed — after which the job aborts with that
exception. -/
theorem c4_missing_report_restart (fresh : Nat → String) (t1 t2 t3 : Nat)
    (rest : List OuterAttempt) (s : SubState)
    (h1 : t1 ≠ 0) (h2 : t2 ≠ 0) (h3 : t3 ≠ 0) :
    cuckoo_submit_attempt fresh (missingReportAttempt t1) s =
      ({ s with taskId := none,
                file := fresh s.freshCtr ++ "." ++ extOf s.file,
                freshCtr := s.freshCtr + 1 },
       .error (.genericExc "Retrying after missing_report status")) ∧
    extOf (fresh s.freshCtr ++ "." ++ extOf s.file) = extOf s.file ∧
    cuckoo_submit fresh (missingReportAttempt t1 :: missingReportAttempt t2 ::
        missingReportAttempt t3 :: rest) s =
      cuckoo_submit fresh [missingReportAttempt t1, missingReportAttempt t2,
        missingReportAttempt t3] s ∧
    cuckoo_submit fresh (missingReportAttempt t1 :: missingReportAttempt t2 ::
        missingReportAttempt t3 :: rest) s =
      ({ s with taskId := none,
                file := fresh (s.freshCtr + 2) ++ "." ++ extOf s.file,
                freshCtr := s.freshCtr + 3 },
       .error (some (.genericExc "Retrying after missing_report status"))) := by
  refine ⟨?_, extOf_fresh_rename _ _, ?_, ?_⟩ <;>
  simp [cuckoo_submit, cuckoo_submit_attempt, missingReportAttempt,
    cuckoo_submit_file, retryExc, cuckoo_submit_file_attempt, extractTaskId,
    cuckoo_poll_started, retryResult, cuckoo_poll_started_step,
    cuckoo_poll_report, cuckoo_poll_report_step,
    cuckoo_query_report, cuckoo_query_report_attempt,
    cuckoo_submit_finish, renameFile, clearId, isChain, exclude_chain_ex,
    containsSubstr, isInfixList, isPrefixList, extOf_fresh_rename,
    Except.mapError, h1, h2, h3]

theorem c4_witness :
    cuckoo_submit (fun _ => "w")
      [missingReportAttempt 1, missingReportAttempt 2, missingReportAttempt 3]
      { file := "a.exe", freshCtr := 0, taskId := none, errors := [],
        report := none } =
      ({ file := "w" ++ "." ++ extOf "a.exe", freshCtr := 3, taskId := none,
         errors := [], report := none },
       .error (some (.genericExc "Retrying after missing_report status"))) := by
  exact (c4_missing_report_restart (fun _ => "w") 1 2 3 []
    { file := "a.exe", freshCtr := 0, taskId := none, errors := [],
      report := none } (by decide) (by decide) (by decide)).2.2.2

/-- C5: an HTTP 500 on file submission renames the file to a fresh random
word carrying the old extension and raises the exception its retry wrapper
retries (a subsequent 200 then succeeds under the renamed file); submission
attempts are capped at 3 in total — extra scripted responses are never
consumed — and exhausting them bubbles up through `cuckoo_submit`, which
records the error, raises the `RecoverableError` submission failure, and
does not retry it. -/
theorem c5_http500_rename_bounded (fresh : Nat → String) (ta tb tc : Option Nat)
    (la lb lc : List Nat) (rest rest2 : List SFResp)
    (startP : List (Option TaskInfo))
    (reportP : List (Option TaskInfo × List QRResp))
    (outerRest : List OuterAttempt) (s : SubState) :
    cuckoo_submit_file_attempt fresh (.status 500 ta la) s =
      (renameFile fresh s, .error (.genericExc "Retrying after 500 error")) ∧
    (renameFile fresh s).file = fresh s.freshCtr ++ "." ++ extOf s.file ∧
    extOf (renameFile fresh s).file = extOf s.file ∧
    cuckoo_submit_file fresh
        (.status 500 ta la :: .status 200 (some 7) [] :: rest2) s =
      (renameFile fresh s, .ok (some 7)) ∧
    cuckoo_submit_file fresh (.status 500 ta la :: .status 500 tb lb ::
        .status 500 tc lc :: rest) s =
      cuckoo_submit_file fresh [.status 500 ta la, .status 500 tb lb,
        .status 500 tc lc] s ∧
    cuckoo_submit_file fresh (.status 500 ta la :: .status 500 tb lb ::
        .status 500 tc lc :: rest) s =
      (renameFile fresh (renameFile fresh (renameFile fresh s)),
       .error (some (.genericExc "Retrying after 500 error"))) ∧
    (renameFile fresh (renameFile fresh (renameFile fresh s))).file =
      fresh (s.freshCtr + 2) ++ "." ++ extOf s.file ∧
    (renameFile fresh (renameFile fresh (renameFile fresh s))).freshCtr =
      s.freshCtr + 3 ∧
    cuckoo_submit fresh
        ({ sf := [.status 500 ta la, .status 500 tb lb, .status 500 tc lc],
           startPolls := startP, reportPolls := reportP } :: outerRest) s =
      ({ renameFile fresh (renameFile fresh (renameFile fresh s)) with
           taskId := none,
           errors := s.errors ++ ["Error submitting to Cuckoo"] },
       .error (some (.recoverable "Unable to submit to Cuckoo"))) := by
  refine ⟨rfl, rfl, ?_, rfl, rfl, rfl, ?_, rfl, rfl⟩
  · exact extOf_fresh_rename _ _
  · simp [renameFile, extOf_fresh_rename]

/-! ## Claim about reports with no behavior/network/signatures (C6) -/

theorem exceptBind_ok {ε α β : Type} (a : α) (f : α → Except ε β) :
    (Except.ok (ε := ε) a >>= f) = f a := rfl

theorem exceptBind_error {ε α β : Type} (e : ε) (f : α → Except ε β) :
    (Except.error (α := α) e >>= f) = Except.error e := rfl

theorem addLine_ne_empty (b l : String) (hb : b ≠ "") : addLine b l ≠ "" := by
  simp only [addLine, if_neg hb]
  intro h
  have hlen := congrArg String.length h
  simp only [String.length_append] at hlen
  have hnl : ("\n" : String).length = 1 := by decide
  have hem : ("" : String).length = 0 := by decide
  omega

theorem foldl_addLine_ne_empty (ls : List String) :
    ∀ b, b ≠ "" → ls.foldl addLine b ≠ "" := by
  induction ls with
  | nil => exact fun b hb => hb
  | cons a rest ih =>
    intro b hb
    simp only [List.foldl_cons]
    exact ih (addLine b a) (addLine_ne_empty b a hb)

/-- The accumulated body is truthy iff some recorded line is non-empty —
for lists whose entries are all non-empty, iff the list is non-empty. -/
theorem foldBody_ne_empty_iff (ls : List String)
    (hne : ∀ e ∈ ls, e ≠ "") : (foldBody ls ≠ "") ↔ ls ≠ [] := by
  cases ls with
  | nil => simp [foldBody]
  | cons a rest =>
    constructor
    · intro _
      simp
    · intro _
      have ha : a ≠ "" := hne a (List.mem_cons_self a rest)
      simp only [foldBody, List.foldl_cons]
      have h0 : addLine "" a = a := by simp [addLine]
      rw [h0]
      exact foldl_addLine_ne_empty rest a ha

theorem ne_empty_of_pyLower_ne_empty (e : String) (h : pyLower e ≠ "") :
    e ≠ "" := by
  intro he
  apply h
  rw [he]
  decide

/-- C6 (amended): a raw report with none of the `info`, `behavior`,
`network`, `droidmon` and `signatures` keys normalizes without raising to
exactly the debug-error Finding when at least one debug error lower-cases to
a non-empty string, and to no Finding at all otherwise (in particular when
the `debug` key is also absent). -/
theorem c6_debug_only_reports (env : REnv) (d : DebugData) (ext gip : String) :
    generate_al_result env { debug := some d } ext gip =
      .ok (process_debug d, true) ∧
    generate_al_result env {} ext gip = .ok ([], true) ∧
    (d.errors = none → process_debug d = []) ∧
    (∀ errs, d.errors = some errs →
      (errs.filter (fun e => pyLower e ≠ "") ≠ [] →
        process_debug d = [{ title := "Analysis Errors",
                             lines := errs.filter (fun e => pyLower e ≠ "") }]) ∧
      (errs.filter (fun e => pyLower e ≠ "") = [] → process_debug d = [])) := by
  refine ⟨?_, rfl, ?_, ?_⟩
  · simp [generate_al_result, pure, Except.pure, exceptBind_ok]
  · intro h
    simp [process_debug, h]
  · intro errs herrs
    constructor
    · intro hne
      have hfil : ∀ e ∈ errs.filter (fun e => pyLower e ≠ ""), e ≠ "" := by
        intro e he
        have := List.of_mem_filter he
        exact ne_empty_of_pyLower_ne_empty e (by simpa using this)
      have hbody : foldBody (errs.filter (fun e => pyLower e ≠ "")) ≠ "" :=
        (foldBody_ne_empty_iff _ hfil).mpr hne
      simp only [process_debug, herrs]
      rw [if_pos hbody]
    · intro hnil
      simp only [process_debug, herrs, hnil]
      simp [foldBody]

/-- C6 (counterexample): a report with no `behavior`, `network` or
`signatures` keys but with an `info` tree normalizes to the "Analysis
Information" Finding — a Finding that is not the debug-error one — so the
claim's "exactly the debug-error Finding and nothing else" fails. -/
theorem c6_counterexample :
    generate_al_result testEnv { info := some {} } ".js" "" =
      .ok ([infoSection {}], true) ∧
    (infoSection {}).title ≠ "Analysis Errors" := by
  exact ⟨rfl, by decide⟩

theorem c6_witness :
    generate_al_result testEnv { debug := some { errors := some ["boom"] } }
      ".js" "" =
      .ok ([{ title := "Analysis Errors", lines := ["boom"] }], true) := by
  have h := c6_debug_only_reports testEnv { errors := some ["boom"] } ".js" ""
  have h2 := (h.2.2.2 ["boom"] rfl).1 (by decide)
  rw [h.1, h2]
  rfl

/-! ## Claim about the benign-CLSID whitelist override (C3) -/

/-- A summary category with entries guarantees at least one summary
section, hence a live `res_sec`. -/
theorem behaviorQuerySections_ne_nil (s : BSummary) (q : QueryEntry)
    (hq : q ∈ result_queries) (hne : summaryGet s q.name ≠ []) :
    behaviorQuerySections s ≠ [] := by
  have hsec : ∃ sec, querySection s q = some sec := by
    simp only [querySection]
    rw [if_neg hne]
    exact ⟨_, rfl⟩
  obtain ⟨sec, hsec⟩ := hsec
  exact List.ne_nil_of_mem (List.mem_filterMap.mpr ⟨q, hq, hsec⟩)

/-- Tagging the last summary section succeeds on a non-empty list and
preserves every section title. -/
theorem addTagToLast_of_ne_nil (secs : List RSection) (t : String × String)
    (h : secs ≠ []) :
    ∃ l, addTagToLast secs t = some l ∧
      l.map (fun sec => sec.title) = secs.map (fun sec => sec.title) := by
  match hrev : secs.reverse with
  | [] =>
    exact absurd (by simpa using congrArg List.reverse hrev) h
  | last :: rest =>
    refine ⟨({ last with tags := last.tags ++ [t] } :: rest).reverse, ?_, ?_⟩
    · simp only [addTagToLast, hrev]
    · have hsecs : secs = (last :: rest).reverse := by
        rw [← hrev, List.reverse_reverse]
      rw [hsecs]
      simp [List.map_reverse]

/-- The title of a summary category section: the table title, possibly with
the limit suffix. -/
theorem querySection_title_eq (s : BSummary) (q : QueryEntry) (sec : RSection)
    (hqs : querySection s q = some sec) :
    sec.title = q.title ∨
      ∃ n, q.limit = some n ∧
        sec.title = q.title ++ " (Limit " ++ toString n ++ ")" := by
  simp only [querySection] at hqs
  split at hqs
  · exact absurd hqs (by simp)
  · rw [Option.some_inj] at hqs
    subst hqs
    cases hlim : q.limit with
    | none =>
      left
      simp [hlim]
    | some n =>
      right
      exact ⟨n, rfl, by simp [hlim]⟩

/-- No summary category section of `process_behavior` carries the network
or signature titles. -/
theorem querySection_title_safe (s : BSummary) (q : QueryEntry)
    (sec : RSection) (hq : q ∈ result_queries)
    (hqs : querySection s q = some sec) :
    sec.title ≠ "Network Activity" ∧ sec.title ≠ "Signatures" := by
  have hte := querySection_title_eq s q sec hqs
  simp only [result_queries, List.mem_cons, List.mem_singleton,
    List.not_mem_nil, or_false] at hq
  rcases hq with rfl | rfl | rfl | rfl | rfl | rfl | rfl | rfl | rfl | rfl |
    rfl | rfl <;>
  rcases hte with ht | ⟨n, hn, ht⟩ <;>
  first
    | (rw [ht]; exact ⟨by decide, by decide⟩)
    | (have hn2 : n = 25 := by simpa using hn.symm
       subst hn2
       rw [ht]
       exact ⟨by decide, by decide⟩)

theorem behaviorQuerySections_titles (s : BSummary) (sec : RSection)
    (h : sec ∈ behaviorQuerySections s) :
    sec.title ≠ "Network Activity" ∧ sec.title ≠ "Signatures" := by
  obtain ⟨q, hq, hqs⟩ := List.mem_filterMap.mp h
  exact querySection_title_safe s q sec hq hqs

/-- A section of a title-preserving copy of the summary sections also avoids
the network/signature titles. -/
theorem titles_safe_of_map_eq (s : BSummary) (l : List RSection)
    (hmap : l.map (fun sec => sec.title) =
      (behaviorQuerySections s).map (fun sec => sec.title))
    (sec : RSection) (hsec : sec ∈ l) :
    sec.title ≠ "Network Activity" ∧ sec.title ≠ "Signatures" := by
  have : sec.title ∈ (behaviorQuerySections s).map (fun sec => sec.title) := by
    rw [← hmap]
    exact List.mem_map.mpr ⟨sec, hsec, rfl⟩
  obtain ⟨sec', hsec', heq⟩ := List.mem_map.mp this
  rw [← heq]
  exact behaviorQuerySections_titles s sec' hsec'

/-- `process_behavior` under a whitelisted resolved-CLSID set: it succeeds
(provided some summary category is non-empty), judges the sample as not
executed, and none of its sections is the network or signatures Finding. -/
theorem process_behavior_not_executed (env : REnv) (b : Behavior)
    (rm : ResultMap)
    (hrm : behaviorFinalMap env b = .ok rm)
    (hcls : rm.clsids ≠ [])
    (hwl : env.wlistHash (env.sha1 (String.intercalate ","
        (pySorted (rm.clsids.map (fun p => safe_str p.2))))) = true)
    (hqne : behaviorQuerySections b.summary ≠ []) :
    ∃ secs, process_behavior env b = .ok (secs, false) ∧
      ∀ sec ∈ secs, sec.title ≠ "Network Activity" ∧
        sec.title ≠ "Signatures" := by
  obtain ⟨l1, hl1, ht1⟩ := addTagToLast_of_ne_nil (behaviorQuerySections b.summary)
    ("dynamic.ssdeep.cls_ids", env.ssdeepHash (String.join
      (pySorted (rm.clsids.map (fun p => safe_str p.2))))) hqne
  have hl1ne : l1 ≠ [] := by
    intro hnil
    rw [hnil] at ht1
    exact hqne (List.map_eq_nil_iff.mp ht1.symm)
  obtain ⟨l2, hl2, ht2⟩ := addTagToLast_of_ne_nil l1
    ("dynamic.ssdeep.regkeys", env.ssdeepHash (String.join
      (pySorted (rm.regkeys.map safe_str)))) hl1ne
  have hexec : (!env.wlistHash (env.sha1 (String.intercalate ","
      (pySorted (rm.clsids.map (fun p => safe_str p.2)))))) = false := by
    rw [hwl]
    rfl
  by_cases hrk : rm.regkeys ≠ []
  · refine ⟨l2 ++ [clsidSection rm], ?_, ?_⟩
    · simp only [process_behavior, hrm, exceptBind_ok, pure, Except.pure]
      rw [if_pos hcls]
      simp only [hl1, exceptBind_ok, hexec, pure, Except.pure]
      rw [if_pos hrk]
      simp only [hl2, exceptBind_ok, pure, Except.pure]
    · intro sec hsec
      rcases List.mem_append.mp hsec with hsec | hsec
      · exact titles_safe_of_map_eq b.summary l2 (ht2.trans ht1) sec hsec
      · rw [List.mem_singleton.mp hsec]
        exact ⟨by simp [clsidSection], by simp [clsidSection]⟩
  · refine ⟨l1 ++ [clsidSection rm], ?_, ?_⟩
    · simp only [process_behavior, hrm, exceptBind_ok, pure, Except.pure]
      rw [if_pos hcls]
      simp only [hl1, exceptBind_ok, hexec, pure, Except.pure]
      rw [if_neg hrk]
    · intro sec hsec
      rcases List.mem_append.mp hsec with hsec | hsec
      · exact titles_safe_of_map_eq b.summary l1 ht1 sec hsec
      · rw [List.mem_singleton.mp hsec]
        exact ⟨by simp [clsidSection], by simp [clsidSection]⟩

/-- C3 (amended): given a report whose resolved COM class-identifier set is
non-empty and SHA-1-hashes into the static benign whitelist, and which has
no droidmon tree and at least one non-empty behavioral summary category (so
that the section the CLSID tag lands on exists), normalization succeeds,
emits the informational "no program available to execute" Finding, and
emits zero network Findings and zero signature Findings — whatever network
data and signature matches the raw report contains. -/
theorem c3_benign_clsid_suppression (env : REnv) (r : RawReport)
    (b : Behavior) (rm : ResultMap) (ext gip : String)
    (hb : r.behavior = some b)
    (hdm : r.droidmon = none)
    (hrm : behaviorFinalMap env b = .ok rm)
    (hcls : rm.clsids ≠ [])
    (hwl : env.wlistHash (env.sha1 (String.intercalate ","
        (pySorted (rm.clsids.map (fun p => safe_str p.2))))) = true)
    (hq : ∃ q ∈ result_queries, summaryGet b.summary q.name ≠ []) :
    ∃ secs, generate_al_result env r ext gip = .ok (secs, true) ∧
      noexecSection ext ∈ secs ∧
      ∀ sec ∈ secs, sec.title ≠ "Network Activity" ∧
        sec.title ≠ "Signatures" := by
  obtain ⟨q, hqm, hqne⟩ := hq
  obtain ⟨bsecs, hpb, hbt⟩ := process_behavior_not_executed env b rm hrm hcls
    hwl (behaviorQuerySections_ne_nil b.summary q hqm hqne)
  refine ⟨(match r.info with
            | some i => [infoSection i]
            | none => []) ++
          (match r.debug with
            | some d => process_debug d
            | none => []) ++ bsecs ++ [noexecSection ext], ?_, ?_, ?_⟩
  · simp only [generate_al_result, hb, hdm, hpb, exceptBind_ok, pure,
      Except.pure]
    simp
  · simp
  · intro sec hsec
    simp only [List.append_assoc, List.mem_append] at hsec
    rcases hsec with hsec | hsec | hsec | hsec
    · match hinfo : r.info with
      | some i =>
        rw [hinfo] at hsec
        rw [List.mem_singleton.mp hsec]
        exact ⟨by simp [infoSection], by simp [infoSection]⟩
      | none =>
        rw [hinfo] at hsec
        exact absurd hsec (List.not_mem_nil sec)
    · match hdbg : r.debug with
      | some d =>
        rw [hdbg] at hsec
        simp only [process_debug] at hsec
        split at hsec
        · exact absurd hsec (List.not_mem_nil sec)
        · split at hsec
          · rw [List.mem_singleton.mp hsec]
            exact ⟨by simp, by simp⟩
          · exact absurd hsec (List.not_mem_nil sec)
      | none =>
        rw [hdbg] at hsec
        exact absurd hsec (List.not_mem_nil sec)
    · exact hbt sec hsec
    · rw [List.mem_singleton.mp hsec]
      exact ⟨by simp [noexecSection], by simp [noexecSection]⟩

/-- C3 (counterexample): the claim as stated fails on a report whose
resolved CLSIDs come only from the `guid` summary list while every summary
category that creates a section is empty: the premise holds (the resolved
set is non-empty and its hash is on the benign whitelist) yet normalization
raises `AttributeError` on the `None`-valued `res_sec` instead of emitting
the informational Finding. -/
theorem c3_counterexample :
    behaviorFinalMap testEnv
      { summary := { guid := ["guidstr"] }, processes := some [] } =
      .ok { regkeys := [], clsids := [("Widget", "ABC")],
            processtree := none } ∧
    testEnv.wlistHash (testEnv.sha1 (String.intercalate ","
      (pySorted ([("Widget", "ABC")].map
        (fun p => safe_str p.2))))) = true ∧
    generate_al_result testEnv
      { behavior := some { summary := { guid := ["guidstr"] },
                           processes := some [] } } ".doc" "" =
      .error .attrError := by
  refine ⟨by rfl, by decide, by rfl⟩

theorem c3_witness :
    ∃ secs, generate_al_result testEnv
      { behavior := some { summary := { directory_created := ["d"],
                                        guid := ["guidstr"] },
                           processes := some [] } } ".doc" "" =
      .ok (secs, true) ∧
      noexecSection ".doc" ∈ secs ∧
      ∀ sec ∈ secs, sec.title ≠ "Network Activity" ∧
        sec.title ≠ "Signatures" := by
  exact c3_benign_clsid_suppression testEnv
    { behavior := some { summary := { directory_created := ["d"],
                                      guid := ["guidstr"] },
                         processes := some [] } }
    { summary := { directory_created := ["d"], guid := ["guidstr"] },
      processes := some [] }
    { regkeys := [], clsids := [("Widget", "ABC")], processtree := none }
    ".doc" "" rfl rfl (by rfl) (by decide) (by decide) (by decide)

end Cuckoo
